import Mathlib

/-!
Verification of the pyroSAR scene-identification and catalog module
(pyroSAR/pyroSAR.py) against its natural-language specification.

The Python module is shallowly embedded: each relevant function is
translated into an executable Lean definition.  Exceptions are modelled
by an explicit error type `PyErr` together with `Except`; external
effects (file systems, GDAL, spatialite geometry functions) are
parameters of the definitions that use them.
-/

set_option maxRecDepth 10000

namespace PyroSAR

/-- Python exception classes raised or caught in pyroSAR.py, each carrying
its message string. -/
inductive PyErr where
  | ioError (msg : String)
  | keyError (msg : String)
  | valueError (msg : String)
  | typeError (msg : String)
  | runtimeError (msg : String)
  | notImplementedError (msg : String)
  | attributeError (msg : String)
  | indexError (msg : String)
  | structError (msg : String)
  | operationalError (msg : String)
  | integrityError (msg : String)
  deriving Repr, DecidableEq

/-- The exception classes caught by the handler loop of `identify`
(line 77 of pyroSAR.py: `except (IOError, KeyError)`). -/
def caughtByIdentify : PyErr → Bool
  | .ioError _ => true
  | .keyError _ => true
  | _ => false

instance {e a : Type} [DecidableEq e] [DecidableEq a] : DecidableEq (Except e a) := fun x y =>
  match x, y with
  | .ok v, .ok w =>
    if h : v = w then isTrue (by rw [h]) else isFalse (fun hc => h (Except.ok.inj hc))
  | .error v, .error w =>
    if h : v = w then isTrue (by rw [h]) else isFalse (fun hc => h (Except.error.inj hc))
  | .ok _, .error _ => isFalse (fun hc => Except.noConfusion hc)
  | .error _, .ok _ => isFalse (fun hc => Except.noConfusion hc)

/-- `str.lower()` on the character list (the core `String.toLower` is
byte-level and does not reduce in proofs). -/
def lowerStr (s : String) : String := String.mk (s.data.map Char.toLower)

/-- `identify(scene)` (pyroSAR.py lines 72-79): try every registered
handler class in turn; a handler failing with `IOError` or `KeyError` is
skipped, a handler failing with any other exception propagates, and if
no handler succeeds the generic `IOError('data format not supported')`
is raised.  The registered handler list `ID.__subclasses__()` is a
parameter; a handler maps a scene to its metadata record or an error. -/
def identify {σ α : Type} (handlers : List (σ → Except PyErr α)) (scene : σ) :
    Except PyErr α :=
  match handlers with
  | [] => .error (.ioError "data format not supported")
  | h :: rest =>
    match h scene with
    | .ok r => .ok r
    | .error e => if caughtByIdentify e then identify rest scene else .error e

/-- `ID.examine` (pyroSAR.py lines 210-217): `files` is the result of
`findfiles(self.pattern)`, i.e. the candidate files matching the
handler's filename pattern; exactly one candidate becomes `self.file`,
zero candidates raise the not-matching `IOError`, several candidates
raise the ambiguity `IOError`. -/
def examine (classname : String) (files : List String) : Except PyErr String :=
  match files with
  | [f] => .ok f
  | [] => .error (.ioError ("scene does not match " ++ classname ++ " naming convention"))
  | fs => .error (.ioError ("file ambiguity detected:\n" ++ String.intercalate "\n" fs))

/-- An element of the input list of `identify_many`: either an already
constructed metadata handler (`isinstance(scene, ID)`) or a path still
to be identified. -/
inductive SceneIn (σ α : Type) where
  | idObj (a : α)
  | path (s : σ)

/-- `identify_many(scenes)` (pyroSAR.py lines 82-99): walk the input list
in order; an element that already is an `ID` object is kept, a path is
passed to `identify`, an `IOError` from `identify` skips the element
(`except IOError: continue`), and any other exception propagates out of
the loop. -/
def identify_many {σ α : Type} (handlers : List (σ → Except PyErr α)) :
    List (SceneIn σ α) → Except PyErr (List α)
  | [] => .ok []
  | .idObj a :: rest => (identify_many handlers rest).map (fun l => a :: l)
  | .path s :: rest =>
    match identify handlers s with
    | .ok r => (identify_many handlers rest).map (fun l => r :: l)
    | .error (.ioError _) => identify_many handlers rest
    | .error e => .error e

/-- The record that `identify` would deliver for one input of
`identify_many`, when it delivers one. -/
def identifyResult {σ α : Type} (handlers : List (σ → Except PyErr α)) :
    SceneIn σ α → Option α
  | .idObj a => some a
  | .path s => (identify handlers s).toOption

theorem identify_cons_caught {σ α : Type} (h : σ → Except PyErr α)
    (rest : List (σ → Except PyErr α)) (scene : σ) (e : PyErr)
    (hh : h scene = .error e) (hc : caughtByIdentify e = true) :
    identify (h :: rest) scene = identify rest scene := by
  simp [identify, hh, hc]

theorem identify_all_fail {σ α : Type} (handlers : List (σ → Except PyErr α))
    (scene : σ)
    (hfail : ∀ g ∈ handlers, ∃ e, g scene = .error e ∧ caughtByIdentify e = true) :
    identify handlers scene = .error (.ioError "data format not supported") := by
  induction handlers with
  | nil => rfl
  | cons h rest ih =>
    obtain ⟨e, he, hc⟩ := hfail h (List.mem_cons_self h rest)
    rw [identify_cons_caught h rest scene e he hc]
    exact ih (fun g hg => hfail g (List.mem_cons_of_mem h hg))

/-- C1: for every input scene, `identify` tries the registered handlers in
order and returns the record of the first handler whose construction
succeeds, all earlier handlers having failed with the recoverable
classes (`IOError`/`KeyError`); and when every handler fails with a
recoverable error, `identify` raises the single generic
`IOError('data format not supported')`, not a handler-specific error. -/
theorem identify_first_success_or_generic_error {σ α : Type}
    (handlers pre post : List (σ → Except PyErr α)) (h : σ → Except PyErr α)
    (scene : σ) (r : α) :
    (handlers = pre ++ h :: post →
      (∀ g ∈ pre, ∃ e, g scene = .error e ∧ caughtByIdentify e = true) →
      h scene = .ok r →
      identify handlers scene = .ok r)
    ∧ ((∀ g ∈ handlers, ∃ e, g scene = .error e ∧ caughtByIdentify e = true) →
      identify handlers scene = .error (.ioError "data format not supported")) := by
  constructor
  · intro hsplit hpre hok
    subst hsplit
    induction pre with
    | nil => simp [identify, hok]
    | cons g rest ih =>
      obtain ⟨e, he, hc⟩ := hpre g (List.mem_cons_self g rest)
      rw [List.cons_append, identify_cons_caught g (rest ++ h :: post) scene e he hc]
      exact ih (fun g hg => hpre g (List.mem_cons_of_mem _ hg))
  · exact identify_all_fail handlers scene

/-- Witness for C1 at concrete inputs: a two-handler list where the first
fails recoverably and the second succeeds yields the second record, and
a two-handler list where both fail recoverably yields the generic
format-not-supported error. -/
theorem identify_first_success_or_generic_error_witness :
    identify [fun _ : Unit => (.error (.ioError "x") : Except PyErr Nat),
              fun _ : Unit => .ok 7] () = .ok 7
    ∧ identify [fun _ : Unit => (.error (.ioError "x") : Except PyErr Nat),
              fun _ : Unit => .error (.keyError "y")] () =
        .error (.ioError "data format not supported") := by
  constructor
  · exact (identify_first_success_or_generic_error
      [fun _ : Unit => (.error (.ioError "x") : Except PyErr Nat), fun _ => .ok 7]
      [fun _ : Unit => (.error (.ioError "x") : Except PyErr Nat)] []
      (fun _ => .ok 7) () 7).1 rfl
      (by
        intro g hg
        simp only [List.mem_singleton] at hg
        exact ⟨.ioError "x", by rw [hg], rfl⟩)
      rfl
  · exact (identify_first_success_or_generic_error
      [fun _ : Unit => (.error (.ioError "x") : Except PyErr Nat),
       fun _ => .error (.keyError "y")] [] []
      (fun _ => .ok 7) () 7).2
      (by
        intro g hg
        simp only [List.mem_cons, List.mem_singleton, List.not_mem_nil, or_false] at hg
        rcases hg with hg | hg
        · exact ⟨.ioError "x", by rw [hg], rfl⟩
        · exact ⟨.keyError "y", by rw [hg], rfl⟩)

/-- C8: file resolution by `examine` succeeds exactly when the handler's
filename pattern matched exactly one candidate file, which becomes the
representative file; zero candidates give the not-matching `IOError`,
several candidates give the ambiguity `IOError`, and both failures are
of the recoverable class that `identify` treats as
does-not-apply. -/
theorem examine_exactly_one (classname : String) (files : List String) :
    ((∃ f, examine classname files = .ok f) ↔ files.length = 1)
    ∧ (∀ f, files = [f] → examine classname files = .ok f)
    ∧ (files = [] →
        examine classname files =
          .error (.ioError ("scene does not match " ++ classname ++ " naming convention")))
    ∧ (2 ≤ files.length →
        examine classname files =
          .error (.ioError ("file ambiguity detected:\n" ++ String.intercalate "\n" files)))
    ∧ (∀ e, examine classname files = .error e → caughtByIdentify e = true) := by
  refine ⟨⟨?_, ?_⟩, ?_, ?_, ?_, ?_⟩
  · intro ⟨f, hf⟩
    match files with
    | [] => simp [examine] at hf
    | [x] => rfl
    | x :: y :: rest => simp [examine] at hf
  · intro h1
    match files with
    | [x] => exact ⟨x, rfl⟩
    | [] => simp at h1
    | x :: y :: rest => simp at h1
  · intro f hf; subst hf; rfl
  · intro hf; subst hf; rfl
  · intro h2
    match files with
    | [] => simp at h2
    | [x] => simp at h2
    | x :: y :: rest => rfl
  · intro e he
    match files with
    | [] => simp [examine] at he; subst he; rfl
    | [x] => simp [examine] at he
    | x :: y :: rest => simp [examine] at he; subst he; rfl

/-- Witness for C8 at concrete inputs: one candidate resolves to that
file, zero and two candidates fail with the recoverable errors. -/
theorem examine_exactly_one_witness :
    examine "CEOS_ERS" ["a.E1"] = .ok "a.E1"
    ∧ examine "CEOS_ERS" [] =
        .error (.ioError "scene does not match CEOS_ERS naming convention")
    ∧ examine "CEOS_ERS" ["a.E1", "b.E1"] =
        .error (.ioError ("file ambiguity detected:\n" ++ String.intercalate "\n" ["a.E1", "b.E1"]))
    ∧ (∀ e, examine "CEOS_ERS" [] = .error e → caughtByIdentify e = true) := by
  refine ⟨?_, ?_, ?_, ?_⟩
  · exact (examine_exactly_one "CEOS_ERS" ["a.E1"]).2.1 "a.E1" rfl
  · have h := (examine_exactly_one "CEOS_ERS" []).2.2.1 rfl
    simpa using h
  · exact (examine_exactly_one "CEOS_ERS" ["a.E1", "b.E1"]).2.2.2.1 (by decide)
  · exact (examine_exactly_one "CEOS_ERS" []).2.2.2.2

/-- C9: `identify_many` walks its inputs strictly in order; whenever it
returns a list (no handler raised an unrecoverable error), that list
consists of exactly the successfully identified records -- already
constructed `ID` objects and paths on which `identify` succeeded -- in
the relative order of their inputs, and nothing of a failed input is
retained. -/
theorem identify_many_ok_filterMap {σ α : Type}
    (handlers : List (σ → Except PyErr α)) (scenes : List (SceneIn σ α))
    (l : List α) (hok : identify_many handlers scenes = .ok l) :
    l = scenes.filterMap (identifyResult handlers) := by
  induction scenes generalizing l with
  | nil =>
    simp [identify_many] at hok
    simp [hok.symm]
  | cons x rest ih =>
    match x with
    | .idObj a =>
      simp only [identify_many] at hok
      cases hrest : identify_many handlers rest with
      | error e => rw [hrest] at hok; simp [Except.map] at hok
      | ok l2 =>
        rw [hrest] at hok
        simp only [Except.map] at hok
        cases hok
        simp [List.filterMap, identifyResult, ih l2 hrest]
    | .path s =>
      simp only [identify_many] at hok
      cases hid : identify handlers s with
      | ok r =>
        rw [hid] at hok
        cases hrest : identify_many handlers rest with
        | error e => rw [hrest] at hok; simp [Except.map] at hok
        | ok l2 =>
          rw [hrest] at hok
          simp only [Except.map] at hok
          cases hok
          simp [List.filterMap, identifyResult, hid, Except.toOption, ih l2 hrest]
      | error e =>
        rw [hid] at hok
        match e with
        | .ioError m =>
          simp only [List.filterMap, identifyResult, hid, Except.toOption]
          exact ih l hok
        | .keyError m => simp at hok
        | .valueError m => simp at hok
        | .typeError m => simp at hok
        | .runtimeError m => simp at hok
        | .notImplementedError m => simp at hok
        | .attributeError m => simp at hok
        | .indexError m => simp at hok
        | .structError m => simp at hok
        | .operationalError m => simp at hok
        | .integrityError m => simp at hok

/-- Witness for C9 at a concrete input: a batch of one `ID` object, one
identifiable path, and one unidentifiable path returns the two successes
in input order. -/
theorem identify_many_ok_filterMap_witness :
    identify_many [fun s : Nat => if s = 1 then (.ok 10 : Except PyErr Nat)
        else .error (.ioError "no")]
      [.idObj 5, .path 1, .path 2] = .ok [5, 10]
    ∧ [5, 10] = List.filterMap
        (identifyResult [fun s : Nat => if s = 1 then (.ok 10 : Except PyErr Nat)
          else .error (.ioError "no")])
        [.idObj 5, .path 1, .path 2] := by
  refine ⟨by rfl, ?_⟩
  exact identify_many_ok_filterMap
    [fun s : Nat => if s = 1 then (.ok 10 : Except PyErr Nat) else .error (.ioError "no")]
    [.idObj 5, .path 1, .path 2] [5, 10] (by rfl)

/-! ## CEOS_ERS construction and the explicit level-0 rejection (C4) -/

/-- One item of a linear regular pattern: a literal character, a
one-character class, or a choice between fixed strings. -/
inductive RItem where
  | lit (c : Char)
  | cls (p : Char → Bool)
  | alt (ss : List (List Char))

/-- Does the second list start with the first? -/
def beginsWith : List Char → List Char → Bool
  | [], _ => true
  | _ :: _, [] => false
  | p :: ps, c :: cs => p == c && beginsWith ps cs

/-- Consume the first alternative that is an initial segment of the
input, in the order the alternatives appear in the pattern. -/
def firstAlt : List (List Char) → List Char → Option (List Char)
  | [], _ => none
  | s :: ss, cs => if beginsWith s cs then some (cs.drop s.length) else firstAlt ss cs

/-- Match a linear pattern against the front of the input and return the
unconsumed rest. -/
def scanItems : List RItem → List Char → Option (List Char)
  | [], cs => some cs
  | .lit _ :: _, [] => none
  | .lit c :: is, x :: cs => if x == c then scanItems is cs else none
  | .cls _ :: _, [] => none
  | .cls p :: is, x :: cs => if p x then scanItems is cs else none
  | .alt ss :: is, cs =>
    match firstAlt ss cs with
    | none => none
    | some rest => scanItems is rest

/-- `n` repetitions of a one-character class. -/
def clsN (p : Char → Bool) (n : Nat) : List RItem := List.replicate n (.cls p)

/-- `re.search` with a literal pattern: does `pat` occur anywhere in the
text? -/
def hasSub (pat : List Char) : List Char → Bool
  | [] => pat.isEmpty
  | c :: rest => beginsWith pat (c :: rest) || hasSub pat rest

/-- `os.path.basename`: the part of the path after the last slash. -/
def basename (s : String) : String :=
  String.mk ((s.data.reverse.takeWhile (fun c => c ≠ '/')).reverse)

def isLevelFirst (c : Char) : Bool := c == '0' || c == '1' || c == '2' || c == 'B'

def isLevelSecond (c : Char) : Bool := c == 'C' || c == 'P'

def isUpperAZ (c : Char) : Bool := 'A' ≤ c && c ≤ 'Z'

def isOriginatorChar (c : Char) : Bool := isUpperAZ c || c == '-'

def isPhaseChar (c : Char) : Bool := c.isDigit || isUpperAZ c

def isSatFirst (c : Char) : Bool := c == 'E' || c == 'N'

def isSatSecond (c : Char) : Bool := c == '1' || c == '2'

/-- The fixed-width front of the CEOS_ERS filename pattern of lines
461-473: satellite (SAR|ASA), image mode with sub-mode letter,
processing level `[012B][CP]`, processing stage `[A-Z]`, originator
`[A-Z\-]` x3, start day (8 digits), start time (6 digits), duration (8
digits), phase `[0-9A-Z]`, cycle (3 digits), relative and absolute orbit
(5 digits each), with their literal underscore separators. -/
def ceos_ers_head : List RItem :=
  [RItem.alt ["SAR".data, "ASA".data],
   .lit '_',
   .alt (["IMS", "IMP", "IMG", "IMM", "IM_", "APS", "APP", "APG", "APM", "AP_",
          "WVI", "WVS", "WVW", "WV_", "WSM", "WSS", "WS_"].map String.data),
   .lit '_',
   .cls isLevelFirst, .cls isLevelSecond,
   .cls isUpperAZ]
  ++ clsN isOriginatorChar 3
  ++ clsN Char.isDigit 8 ++ [RItem.lit '_']
  ++ clsN Char.isDigit 6 ++ [RItem.lit '_']
  ++ clsN Char.isDigit 8
  ++ [RItem.cls isPhaseChar]
  ++ clsN Char.isDigit 3 ++ [RItem.lit '_']
  ++ clsN Char.isDigit 5 ++ [RItem.lit '_']
  ++ clsN Char.isDigit 5 ++ [RItem.lit '_']

/-- The anchored CEOS_ERS filename pattern (lines 461-473), applied by
`re.match` to the basename of the resolved file; returns the
`product_id` group -- the first ten characters -- on a full match.  The
counter group `[0-9]{4,}` is greedy and is followed by a literal dot, so
maximal munch coincides with the regex backtracking semantics; the
extension alternation `(?:\.zip|\.tar\.gz|\.PS|)` before the end anchor
is an exact check on the remaining characters. -/
def ceos_ers_match (name : String) : Option String :=
  let cs := name.data
  match scanItems ceos_ers_head cs with
  | none => none
  | some tail =>
    let counter := tail.takeWhile Char.isDigit
    let tail2 := tail.dropWhile Char.isDigit
    if 4 ≤ counter.length then
      match tail2 with
      | '.' :: s1 :: s2 :: ext =>
        if isSatFirst s1 && isSatSecond s2
            && (ext == [] || ext == ".zip".data || ext == ".tar.gz".data
                || ext == ".PS".data) then
          some (String.mk (cs.take 10))
        else none
      | _ => none
    else none

/-- `CEOS_ERS.__init__` (lines 460-504) up to the explicit
product-level check of lines 486-487.  `files` is the candidate list
delivered by `findfiles(self.pattern)`; `rest` abstracts the remaining
construction (`gdalinfo`, `scanMetadata` and attribute registration),
which is reached only when the product id does not contain `IM__0`.  A
basename on which `re.match` returns `None` makes `match.group` raise
`AttributeError`. -/
def CEOS_ERS_init {α : Type} (files : List String) (rest : Except PyErr α) :
    Except PyErr α :=
  match examine "CEOS_ERS" files with
  | .error e => .error e
  | .ok file =>
    match ceos_ers_match (basename file) with
    | none => .error (.attributeError "NoneType object has no attribute group")
    | some pid =>
      if hasSub "IM__0".data pid.data then
        .error (.ioError "product level 0 not supported (yet)")
      else rest

/-- C4 counterexample: a CEOS level-0 scene (product id `SAR_IM__0P`).
The handler raises `IOError('product level 0 not supported (yet)')`,
which is one of the classes `identify` catches; `identify` therefore
swallows the rejection and -- with no further handler succeeding --
terminates in the generic format-not-supported error, contrary to the
claim that the unsupported-product failure propagates to the caller. -/
theorem ceos_ers_level0_not_propagated_counterexample :
    CEOS_ERS_init
      ["SAR_IM__0PXASI19920101_123456_00000018E187_00394_00395_0000.E1"]
      (Except.ok (0 : Nat)) = .error (.ioError "product level 0 not supported (yet)")
    ∧ identify
        [fun files => CEOS_ERS_init files (Except.ok (0 : Nat))]
        ["SAR_IM__0PXASI19920101_123456_00000018E187_00394_00395_0000.E1"]
      = .error (.ioError "data format not supported") := by
  exact ⟨rfl, rfl⟩

/-- C4 amended: the explicitly-unsupported level-0 rejection of
CEOS_ERS (lines 486-487) is raised as an `IOError`, which is exactly the
recoverable class `identify` catches; the scene is handed to the
remaining handlers, and when none of them succeeds the call ends in the
generic `IOError('data format not supported')` instead of the
scene-specific rejection. -/
theorem ceos_ers_level0_caught_by_identify {α : Type}
    (files : List String) (file pid : String) (rest : Except PyErr α)
    (others : List (List String → Except PyErr α))
    (h1 : examine "CEOS_ERS" files = .ok file)
    (h2 : ceos_ers_match (basename file) = some pid)
    (h3 : hasSub "IM__0".data pid.data = true)
    (hothers : ∀ g ∈ others, ∃ e, g files = .error e ∧ caughtByIdentify e = true) :
    CEOS_ERS_init files rest = .error (.ioError "product level 0 not supported (yet)")
    ∧ caughtByIdentify (.ioError "product level 0 not supported (yet)") = true
    ∧ identify ((fun fs => CEOS_ERS_init fs rest) :: others) files
        = .error (.ioError "data format not supported") := by
  have hinit : CEOS_ERS_init files rest
      = .error (.ioError "product level 0 not supported (yet)") := by
    simp [CEOS_ERS_init, h1, h2, h3]
  refine ⟨hinit, rfl, ?_⟩
  apply identify_all_fail
  intro g hg
  simp only [List.mem_cons] at hg
  rcases hg with hg | hg
  · exact ⟨.ioError "product level 0 not supported (yet)", by rw [hg]; exact hinit, rfl⟩
  · exact hothers g hg

/-- Witness for the amended C4: the concrete level-0 filename with one
further handler that fails recoverably. -/
theorem ceos_ers_level0_caught_by_identify_witness :
    CEOS_ERS_init
      ["SAR_IM__0PXASI19920101_123456_00000018E187_00394_00395_0000.E1"]
      (Except.ok (3 : Nat)) = .error (.ioError "product level 0 not supported (yet)")
    ∧ caughtByIdentify (.ioError "product level 0 not supported (yet)") = true
    ∧ identify
        [fun fs => CEOS_ERS_init fs (Except.ok (3 : Nat)),
         fun _ => .error (.keyError "missing")]
        ["SAR_IM__0PXASI19920101_123456_00000018E187_00394_00395_0000.E1"]
      = .error (.ioError "data format not supported") := by
  exact ceos_ers_level0_caught_by_identify
    ["SAR_IM__0PXASI19920101_123456_00000018E187_00394_00395_0000.E1"]
    "SAR_IM__0PXASI19920101_123456_00000018E187_00394_00395_0000.E1"
    "SAR_IM__0P" (Except.ok 3)
    [fun _ => .error (.keyError "missing")]
    rfl rfl rfl
    (by
      intro g hg
      simp only [List.mem_singleton] at hg
      exact ⟨.keyError "missing", by rw [hg], rfl⟩)

/-! ## outname_base (C7) -/

/-- The metadata attributes of an `ID` object that the catalog operations
use: the `__LOCAL__` attributes registered by `ID.__init__` (without the
purely numeric `projection` and `spacing` entries, which no claim
touches) plus the scene location.  `samples` and `lines` are the integer
raster dimensions. -/
structure IDmeta where
  sensor : String
  orbit : String
  polarizations : List String
  acquisition_mode : String
  start : String
  stop : String
  product : String
  samples : Int
  lines : Int
  scene : String
  deriving Repr, DecidableEq

/-- Python format spec `'{:_<4}'`: left-justify and fill with
underscores to a minimum width of four characters. -/
def pad4 (s : String) : String :=
  if s.length < 4 then s ++ String.mk (List.replicate (4 - s.length) '_') else s

/-- `ID.outname_base` (lines 359-364): the underscore-join of the sensor
padded to at least four characters, the acquisition mode padded to at
least four characters, the orbit field and the start timestamp. -/
def outname_base (id : IDmeta) : String :=
  pad4 id.sensor ++ "_" ++ pad4 id.acquisition_mode ++ "_" ++ id.orbit ++ "_" ++ id.start

/-- List-level version of `pad4`. -/
def padL (s : List Char) : List Char :=
  if s.length < 4 then s ++ List.replicate (4 - s.length) '_' else s

theorem pad4_data (s : String) : (pad4 s).data = padL s.data := by
  obtain ⟨d⟩ := s
  by_cases h : d.length < 4
  · simp only [pad4, padL, String.length]
    rw [if_pos h, if_pos h]
    rfl
  · simp only [pad4, padL, String.length]
    rw [if_neg h, if_neg h]

theorem padL_eq (s : List Char) : padL s = s ++ List.replicate (4 - s.length) '_' := by
  by_cases h : s.length < 4
  · simp [padL, h]
  · have h0 : 4 - s.length = 0 := by omega
    simp [padL, h, h0]

theorem padL_length (s : List Char) : (padL s).length = max 4 s.length := by
  rw [padL_eq]
  simp only [List.length_append, List.length_replicate]
  omega

theorem takeWhile_no_underscore (s : List Char) (r : List Char) (h : '_' ∉ s) :
    (s ++ '_' :: r).takeWhile (fun c => c != '_') = s := by
  induction s with
  | nil => simp [List.takeWhile]
  | cons c cs ih =>
    have hc : c ≠ '_' := fun e => h (e ▸ List.mem_cons_self c cs)
    have hcs : '_' ∉ cs := fun m => h (List.mem_cons_of_mem _ m)
    have hb : (c != '_') = true := by simpa using hc
    simp only [List.cons_append, List.takeWhile]
    simp [hb, ih hcs]

theorem padL_run (s : List Char) (r : List Char) (h : '_' ∉ s) :
    (padL s ++ '_' :: r).takeWhile (fun c => c != '_') = s := by
  rw [padL_eq, List.append_assoc]
  cases hk : 4 - s.length with
  | zero => simpa using takeWhile_no_underscore s r h
  | succ k =>
    have : List.replicate (k + 1) '_' ++ '_' :: r = '_' :: (List.replicate k '_' ++ '_' :: r) := by
      simp [List.replicate_succ]
    rw [this]
    exact takeWhile_no_underscore s _ h

/-- Decode the four components back out of an `outname_base` string,
assuming the orbit part has one character and the start part fifteen. -/
def decParts (t : List Char) : List Char × List Char × List Char × List Char :=
  let left := t.take (t.length - 18)
  let run := left.takeWhile (fun c => c != '_')
  let alen := max 4 run.length
  (left.take alen, left.drop (alen + 1),
   (t.drop (t.length - 17)).take 1, t.drop (t.length - 15))

theorem decParts_encode (s m c d : List Char)
    (hsu : '_' ∉ s) (hc : c.length = 1) (hd : d.length = 15) :
    decParts (padL s ++ '_' :: (padL m ++ '_' :: (c ++ '_' :: d)))
      = (padL s, padL m, c, d) := by
  set A := padL s with hA
  set B := padL m with hB
  set t := A ++ '_' :: (B ++ '_' :: (c ++ '_' :: d)) with ht
  have hlen : t.length = A.length + B.length + 19 := by
    simp [ht, List.length_append, hc, hd]
    omega
  have hsplit1 : t = (A ++ '_' :: B) ++ ('_' :: (c ++ '_' :: d)) := by
    simp [ht, List.append_assoc]
  have hleft : t.take (t.length - 18) = A ++ '_' :: B := by
    rw [hsplit1]
    apply List.take_left'
    simp [List.length_append]
    omega
  have hrun : (A ++ '_' :: B).takeWhile (fun c => c != '_') = s := padL_run s B hsu
  have halen : max 4 s.length = A.length := (padL_length s).symm
  have hAcomp : (A ++ '_' :: B).take A.length = A := by
    have : A ++ '_' :: B = A ++ ('_' :: B) := rfl
    rw [this]
    exact List.take_left' rfl
  have hBcomp : (A ++ '_' :: B).drop (A.length + 1) = B := by
    have h1 : A ++ '_' :: B = (A ++ ['_']) ++ B := by simp
    rw [h1]
    apply List.drop_left'
    simp
  have hccomp : (t.drop (t.length - 17)).take 1 = c := by
    have h1 : t = ((A ++ '_' :: B) ++ ['_']) ++ (c ++ '_' :: d) := by
      simp [ht, List.append_assoc]
    have h2 : t.drop (t.length - 17) = c ++ '_' :: d := by
      rw [h1]
      apply List.drop_left'
      simp [List.length_append]
      omega
    rw [h2]
    exact List.take_left' hc
  have hdcomp : t.drop (t.length - 15) = d := by
    have h1 : t = ((A ++ '_' :: B) ++ '_' :: (c ++ ['_'])) ++ d := by
      simp [ht, List.append_assoc]
    rw [h1]
    apply List.drop_left'
    simp [List.length_append, hc]
    omega
  simp only [decParts]
  rw [hleft, hrun, halen, hAcomp, hBcomp, hccomp, hdcomp]

theorem outname_base_data (r : IDmeta) :
    (outname_base r).data =
      padL r.sensor.data ++ '_' :: (padL r.acquisition_mode.data
        ++ '_' :: (r.orbit.data ++ '_' :: r.start.data)) := by
  simp [outname_base, String.data_append, pad4_data, List.append_assoc]

/-- C7 counterexample: two records that agree on `outname_base` without
agreeing on the padded fields.  The claim's equivalence fails because
the acquisition-mode field may itself contain underscores, so the
underscore-join is not injective on unrestricted field values. -/
theorem outname_base_agree_counterexample :
    (outname_base { sensor := "AB", orbit := "A", polarizations := ["VV"],
                    acquisition_mode := "XY_PQRS", start := "20200101T000000",
                    stop := "20200101T000100", product := "SLC", samples := 1,
                    lines := 1, scene := "s1" }
      = outname_base { sensor := "AB___XY", orbit := "A", polarizations := ["VV"],
                       acquisition_mode := "PQRS", start := "20200101T000000",
                       stop := "20200101T000100", product := "SLC", samples := 1,
                       lines := 1, scene := "s2" })
    ∧ pad4 "XY_PQRS" ≠ pad4 "PQRS"
    ∧ pad4 "AB" ≠ pad4 "AB___XY" := by
  refine ⟨by decide, by decide, by decide⟩

/-- C7 amended: `outname_base` is the deterministic underscore-join of
the padded sensor, the padded acquisition mode, the orbit field and the
start field; and two records agree on `outname_base` exactly when they
agree on those four fields after padding, provided the sensor fields
contain no underscore, the orbit fields are single characters and the
start fields have the fifteen-character timestamp length -- the shapes
every handler produces.  Without these restrictions the reverse
direction fails (see the counterexample). -/
theorem outname_base_agree_iff (r1 r2 : IDmeta)
    (h1 : '_' ∉ r1.sensor.data) (h2 : '_' ∉ r2.sensor.data)
    (ho1 : r1.orbit.length = 1) (ho2 : r2.orbit.length = 1)
    (hs1 : r1.start.length = 15) (hs2 : r2.start.length = 15) :
    outname_base r1 = outname_base r2 ↔
      (pad4 r1.sensor = pad4 r2.sensor
        ∧ pad4 r1.acquisition_mode = pad4 r2.acquisition_mode
        ∧ r1.orbit = r2.orbit ∧ r1.start = r2.start) := by
  constructor
  · intro h
    have hdata : (outname_base r1).data = (outname_base r2).data :=
      congrArg String.data h
    rw [outname_base_data, outname_base_data] at hdata
    have e1 := decParts_encode r1.sensor.data r1.acquisition_mode.data
      r1.orbit.data r1.start.data h1 ho1 hs1
    have e2 := decParts_encode r2.sensor.data r2.acquisition_mode.data
      r2.orbit.data r2.start.data h2 ho2 hs2
    rw [hdata, e2] at e1
    simp only [Prod.mk.injEq] at e1
    obtain ⟨ea, eb, ec, ed⟩ := e1
    refine ⟨?_, ?_, ?_, ?_⟩
    · exact String.ext (by rw [pad4_data, pad4_data]; exact ea.symm)
    · exact String.ext (by rw [pad4_data, pad4_data]; exact eb.symm)
    · exact String.ext ec.symm
    · exact String.ext ed.symm
  · rintro ⟨ha, hb, hc, hd⟩
    simp [outname_base, ha, hb, hc, hd]

/-- Witness for the amended C7 at concrete records of the handler shape:
underscore-free sensors, one-character orbits, fifteen-character start
stamps. -/
theorem outname_base_agree_iff_witness :
    ('_' ∉ ("S1A" : String).data) ∧ ("A" : String).length = 1
    ∧ ("20200101T000000" : String).length = 15
    ∧ outname_base { sensor := "S1A", orbit := "A", polarizations := ["VV"],
                     acquisition_mode := "IW", start := "20200101T000000",
                     stop := "20200101T000100", product := "GRD", samples := 2,
                     lines := 2, scene := "a.zip" }
      = outname_base { sensor := "S1A", orbit := "A", polarizations := ["VV", "VH"],
                       acquisition_mode := "IW", start := "20200101T000000",
                       stop := "20200101T000200", product := "SLC", samples := 3,
                       lines := 3, scene := "b.zip" } := by
  refine ⟨by decide, by decide, by decide, ?_⟩
  exact (outname_base_agree_iff
    { sensor := "S1A", orbit := "A", polarizations := ["VV"],
      acquisition_mode := "IW", start := "20200101T000000",
      stop := "20200101T000100", product := "GRD", samples := 2,
      lines := 2, scene := "a.zip" }
    { sensor := "S1A", orbit := "A", polarizations := ["VV", "VH"],
      acquisition_mode := "IW", start := "20200101T000000",
      stop := "20200101T000200", product := "SLC", samples := 3,
      lines := 3, scene := "b.zip" }
    (by decide) (by decide) (by decide) (by decide) (by decide) (by decide)).mpr
    (by refine ⟨by decide, by decide, by decide, by decide⟩)

/-! ## ID.parse_date (C5)

`ID.parse_date` (lines 366-381) tries a fixed ordered list of
`time.strptime` formats and renders the first success with
`time.strftime('%Y%m%dT%H%M%S', ...)`; any `ValueError`/`TypeError`
from an attempt moves on to the next format, and exhaustion raises
`ValueError('unknown time format; check function ID.parse_date')`.

The module runs under Python 2.7 (shebang, `StringIO`/`urllib2`
imports).  CPython 2.7's `_strptime` compiles each format directive to a
fixed regular subexpression (with `re.IGNORECASE`), takes the first
backtracking match of the whole pattern, raises on unconverted trailing
data, and validates the date through `datetime.date` (year 1..9999, day
within the month).  Python 2.7's `time.strftime` then applies the
`accept2dyear` year handling of `gettmarg` (timemodule.c, default on):
a year below 1900 is remapped -- 69..99 to 1969..1999, 0..68 to
2000..2068 -- and years 100..1899 raise
`ValueError('year out of range')`; the `%Y` directive renders the
(remapped, hence four-digit) year as an unpadded decimal and the
two-digit directives zero-padded. -/

/-- A broken-down time as produced by `strptime`: year, month, day,
hour, minute, second.  `_strptime` defaults: 1900-01-01 00:00:00. -/
structure PDat where
  y : Nat
  mo : Nat
  dy : Nat
  hh : Nat
  mi : Nat
  ss : Nat
  deriving Repr, DecidableEq

def pd0 : PDat := ⟨1900, 1, 1, 0, 0, 0⟩

/-- A code-point range check: the semantics of a character class such as
`[0-9]` or `[0-2]`. -/
def inRange (lo hi : Nat) (c : Char) : Bool := lo ≤ c.toNat && c.toNat ≤ hi

/-- Numeric value of a digit character. -/
def dval (c : Char) : Nat := c.toNat - 48

/-- The field directives appearing in the five `parse_date` formats. -/
inductive FieldKind where
  | fY | fm | fd | fH | fM | fS | ff | fb
  deriving Repr, DecidableEq

/-- One compiled item of a format: a literal character (matched
case-insensitively, from `re.IGNORECASE`), a whitespace run `\s+`
(from whitespace in the format), or a field directive. -/
inductive FItem where
  | lit (c : Char)
  | ws
  | fld (k : FieldKind)

/-- `(?P<m>1[0-2]|0[1-9]|[1-9])`, alternatives in regex order. -/
def fieldM : List Char → List (Nat × List Char)
  | c1 :: c2 :: rest =>
    (if c1 == '1' && inRange 48 50 c2 then [(10 + dval c2, rest)] else [])
    ++ (if c1 == '0' && inRange 49 57 c2 then [(dval c2, rest)] else [])
    ++ (if inRange 49 57 c1 then [(dval c1, c2 :: rest)] else [])
  | [c1] => if inRange 49 57 c1 then [(dval c1, [])] else []
  | [] => []

/-- `(?P<d>3[0-1]|[1-2]\d|0[1-9]|[1-9]| [1-9])`, regex order; the last
alternative is a space followed by a digit. -/
def fieldD : List Char → List (Nat × List Char)
  | c1 :: c2 :: rest =>
    (if c1 == '3' && inRange 48 49 c2 then [(30 + dval c2, rest)] else [])
    ++ (if inRange 49 50 c1 && inRange 48 57 c2
        then [(10 * dval c1 + dval c2, rest)] else [])
    ++ (if c1 == '0' && inRange 49 57 c2 then [(dval c2, rest)] else [])
    ++ (if inRange 49 57 c1 then [(dval c1, c2 :: rest)] else [])
    ++ (if c1 == ' ' && inRange 49 57 c2 then [(dval c2, rest)] else [])
  | [c1] => if inRange 49 57 c1 then [(dval c1, [])] else []
  | [] => []

/-- `(?P<H>2[0-3]|[0-1]\d|\d)`, regex order. -/
def fieldH : List Char → List (Nat × List Char)
  | c1 :: c2 :: rest =>
    (if c1 == '2' && inRange 48 51 c2 then [(20 + dval c2, rest)] else [])
    ++ (if inRange 48 49 c1 && inRange 48 57 c2
        then [(10 * dval c1 + dval c2, rest)] else [])
    ++ (if inRange 48 57 c1 then [(dval c1, c2 :: rest)] else [])
  | [c1] => if inRange 48 57 c1 then [(dval c1, [])] else []
  | [] => []

/-- `(?P<M>[0-5]\d|\d)`, regex order. -/
def fieldMin : List Char → List (Nat × List Char)
  | c1 :: c2 :: rest =>
    (if inRange 48 53 c1 && inRange 48 57 c2
        then [(10 * dval c1 + dval c2, rest)] else [])
    ++ (if inRange 48 57 c1 then [(dval c1, c2 :: rest)] else [])
  | [c1] => if inRange 48 57 c1 then [(dval c1, [])] else []
  | [] => []

/-- `(?P<S>6[0-1]|[0-5]\d|\d)`, regex order (leap seconds allowed). -/
def fieldS : List Char → List (Nat × List Char)
  | c1 :: c2 :: rest =>
    (if c1 == '6' && inRange 48 49 c2 then [(60 + dval c2, rest)] else [])
    ++ (if inRange 48 53 c1 && inRange 48 57 c2
        then [(10 * dval c1 + dval c2, rest)] else [])
    ++ (if inRange 48 57 c1 then [(dval c1, c2 :: rest)] else [])
  | [c1] => if inRange 48 57 c1 then [(dval c1, [])] else []
  | [] => []

/-- `(?P<Y>\d\d\d\d)`: exactly four digits. -/
def fieldY : List Char → List (Nat × List Char)
  | c1 :: c2 :: c3 :: c4 :: rest =>
    if inRange 48 57 c1 && inRange 48 57 c2 && inRange 48 57 c3 && inRange 48 57 c4
    then [(1000 * dval c1 + 100 * dval c2 + 10 * dval c3 + dval c4, rest)]
    else []
  | _ => []

/-- Consume exactly `k` digits. -/
def takeDigits : Nat → List Char → Option (List Char)
  | 0, cs => some cs
  | _ + 1, [] => none
  | k + 1, c :: cs => if inRange 48 57 c then takeDigits k cs else none

/-- `(?P<f>[0-9]{1,6})`: greedy, so the longest digit run (up to six)
is preferred.  The fractional value never reaches the output time
tuple, so the captured value is irrelevant. -/
def fieldF (cs : List Char) : List (Nat × List Char) :=
  [6, 5, 4, 3, 2, 1].filterMap
    (fun k => (takeDigits k cs).map (fun rest => (0, rest)))

/-- The abbreviated month names of the C locale, lowercased as in
`_strptime.TimeRE`. -/
def monthNames : List (List Char × Nat) :=
  [("jan".data, 1), ("feb".data, 2), ("mar".data, 3), ("apr".data, 4),
   ("may".data, 5), ("jun".data, 6), ("jul".data, 7), ("aug".data, 8),
   ("sep".data, 9), ("oct".data, 10), ("nov".data, 11), ("dec".data, 12)]

/-- `(?P<b>jan|feb|...)` under `re.IGNORECASE`: a three-letter month
abbreviation, compared lowercased. -/
def fieldB : List Char → List (Nat × List Char)
  | c1 :: c2 :: c3 :: rest =>
    match monthNames.find? (fun p => p.1 == [c1.toLower, c2.toLower, c3.toLower]) with
    | some p => [(p.2, rest)]
    | none => []
  | _ => []

def parseField : FieldKind → List Char → List (Nat × List Char)
  | .fY => fieldY
  | .fm => fieldM
  | .fd => fieldD
  | .fH => fieldH
  | .fM => fieldMin
  | .fS => fieldS
  | .ff => fieldF
  | .fb => fieldB

/-- Store a captured field in the broken-down time (the fraction is
dropped, as `time.strptime` returns no sub-second field). -/
def setFld : FieldKind → Nat → PDat → PDat
  | .fY, v, t => { t with y := v }
  | .fm, v, t => { t with mo := v }
  | .fd, v, t => { t with dy := v }
  | .fH, v, t => { t with hh := v }
  | .fM, v, t => { t with mi := v }
  | .fS, v, t => { t with ss := v }
  | .ff, _, t => t
  | .fb, v, t => { t with mo := v }

/-- `\s` of the `re` module. -/
def isSpaceC (c : Char) : Bool :=
  c == ' ' || c == '\t' || c == '\n' || c == '\r' || c == '\x0B' || c == '\x0C'

/-- The ways the greedy `\s+` can consume a nonempty part of the leading
whitespace run, longest first. -/
def wsSplits (cs : List Char) : List (List Char) :=
  let run := cs.takeWhile isSpaceC
  (List.range run.length).map (fun i => cs.drop (run.length - i))

/-- All backtracking matches of a compiled format against the front of
the input, in regex preference order; each carries the captured
broken-down time and the unconsumed rest. -/
def runFmt : List FItem → PDat → List Char → List (PDat × List Char)
  | [], t, cs => [(t, cs)]
  | .lit _ :: _, _, [] => []
  | .lit c :: is, t, x :: cs =>
    if x.toLower == c.toLower then runFmt is t cs else []
  | .ws :: is, t, cs => (wsSplits cs).flatMap (fun rest => runFmt is t rest)
  | .fld k :: is, t, cs =>
    (parseField k cs).flatMap (fun vr => runFmt is (setFld k vr.1 t) vr.2)

def leapYear (y : Nat) : Bool := y % 4 == 0 && (y % 100 != 0 || y % 400 == 0)

def daysInMonth (y mo : Nat) : Nat :=
  if mo == 2 then (if leapYear y then 29 else 28)
  else if mo == 4 || mo == 6 || mo == 9 || mo == 11 then 30 else 31

/-- The `datetime.date` validation performed inside `_strptime`
(identical in Python 2.7): year within 1..9999, month within 1..12,
day within the month.  The further year restriction of the strftime
stage is modelled separately by `remapYear`. -/
def validDate (t : PDat) : Bool :=
  1 ≤ t.y && t.y ≤ 9999 && 1 ≤ t.mo && t.mo ≤ 12
    && 1 ≤ t.dy && t.dy ≤ daysInMonth t.y t.mo

/-- The `time.strptime` stage of one attempt: the regex engine returns
its first match, which must consume the whole input (else
`ValueError('unconverted data remains')`), and the date must pass the
`datetime.date` validation. -/
def strptimeTF (items : List FItem) (x : String) : Option PDat :=
  match runFmt items pd0 x.data with
  | [] => none
  | (t, rest) :: _ => if rest.isEmpty && validDate t then some t else none

/-- Python 2.7 `time.strftime` year handling (`gettmarg` in
timemodule.c, with the default `accept2dyear = 1`): a full year below
1900 is remapped -- 69..99 to 1969..1999 and 0..68 to 2000..2068, with
a DeprecationWarning -- and any other year below 1900 (i.e. 100..1899)
raises `ValueError('year out of range')`. -/
def remapYear (y : Nat) : Except PyErr Nat :=
  if y < 1900 then
    if 69 ≤ y ∧ y ≤ 99 then .ok (y + 1900)
    else if y ≤ 68 then .ok (y + 2000)
    else .error (.valueError "year out of range")
  else .ok y

/-- One `strftime(..., strptime(x, fmt))` attempt of `parse_date`: a
failed regex match, trailing unconverted data, an invalid date, or the
year-out-of-range `ValueError` of the strftime stage all make the
attempt fail (the `except (TypeError, ValueError)` clause moves on to
the next format).  On success the result carries the broken-down time
that is actually rendered, i.e. with the year remapped. -/
def tryFormat (items : List FItem) (x : String) : Option PDat :=
  match strptimeTF items x with
  | none => none
  | some t =>
    match remapYear t.y with
    | .ok y2 => some { t with y := y2 }
    | .error _ => none

/-- `'%d-%b-%Y %H:%M:%S.%f'` -/
def fmt1 : List FItem :=
  [.fld .fd, .lit '-', .fld .fb, .lit '-', .fld .fY, .ws,
   .fld .fH, .lit ':', .fld .fM, .lit ':', .fld .fS, .lit '.', .fld .ff]

/-- `'%Y%m%d%H%M%S%f'` -/
def fmt2 : List FItem :=
  [.fld .fY, .fld .fm, .fld .fd, .fld .fH, .fld .fM, .fld .fS, .fld .ff]

/-- `'%Y-%m-%dT%H:%M:%S.%f'` -/
def fmt3 : List FItem :=
  [.fld .fY, .lit '-', .fld .fm, .lit '-', .fld .fd, .lit 'T',
   .fld .fH, .lit ':', .fld .fM, .lit ':', .fld .fS, .lit '.', .fld .ff]

/-- `'%Y-%m-%dT%H:%M:%S.%fZ'` -/
def fmt4 : List FItem := fmt3 ++ [.lit 'Z']

/-- `'%Y%m%d %H:%M:%S.%f'` -/
def fmt5 : List FItem :=
  [.fld .fY, .fld .fm, .fld .fd, .ws,
   .fld .fH, .lit ':', .fld .fM, .lit ':', .fld .fS, .lit '.', .fld .ff]

/-- The ordered format list of lines 372-376. -/
def timeformats : List (List FItem) := [fmt1, fmt2, fmt3, fmt4, fmt5]

def digitChar (n : Nat) : Char := Char.ofNat (48 + n)

/-- glibc `%Y`: the year as an unpadded decimal.  The year reaching the
renderer has already passed `remapYear`, so it lies in 1900..9999 and
only the four-digit branch is reachable; the shorter branches keep the
decimal rendering total. -/
def yearRender (y : Nat) : List Char :=
  if y < 10 then [digitChar y]
  else if y < 100 then [digitChar (y / 10), digitChar (y % 10)]
  else if y < 1000 then [digitChar (y / 100), digitChar (y / 10 % 10), digitChar (y % 10)]
  else [digitChar (y / 1000), digitChar (y / 100 % 10), digitChar (y / 10 % 10),
        digitChar (y % 10)]

/-- A zero-padded two-digit directive (`%m`, `%d`, `%H`, `%M`, `%S`);
every such field is below 100. -/
def padTwo (n : Nat) : List Char :=
  if n < 10 then ['0', digitChar n] else [digitChar (n / 10), digitChar (n % 10)]

/-- `time.strftime('%Y%m%dT%H%M%S', t)`. -/
def strftimeOut (t : PDat) : String :=
  String.mk (yearRender t.y ++ padTwo t.mo ++ padTwo t.dy
    ++ 'T' :: (padTwo t.hh ++ padTwo t.mi ++ padTwo t.ss))

/-- The first format of the list on which the whole
`strftime(strptime(...))` attempt succeeds, carrying the broken-down
time that is rendered (year remapped). -/
def firstParse_go : List (List FItem) → String → Option PDat
  | [], _ => none
  | f :: fs, x =>
    match tryFormat f x with
    | some t => some t
    | none => firstParse_go fs x

def firstParse (x : String) : Option PDat := firstParse_go timeformats x

/-- `ID.parse_date` (lines 366-381). -/
def parse_date_go : List (List FItem) → String → Except PyErr String
  | [], _ => .error (.valueError "unknown time format; check function ID.parse_date")
  | f :: fs, x =>
    match tryFormat f x with
    | some t => .ok (strftimeOut t)
    | none => parse_date_go fs x

def parse_date (x : String) : Except PyErr String := parse_date_go timeformats x

/-- The output of `strftime('%Y%m%dT%H%M%S', ...)` in the claimed
YYYYMMDDTHHMMSS shape: fifteen characters, all digits except the letter
T at index eight. -/
def isTimestamp15 (r : String) : Bool :=
  match r.data with
  | [a1, a2, a3, a4, b1, b2, c1, c2, t, d1, d2, e1, e2, g1, g2] =>
    a1.isDigit && a2.isDigit && a3.isDigit && a4.isDigit && b1.isDigit
    && b2.isDigit && c1.isDigit && c2.isDigit && (t == 'T') && d1.isDigit
    && d2.isDigit && e1.isDigit && e2.isDigit && g1.isDigit && g2.isDigit
  | _ => false

theorem mem_ite_nil {α : Type} {x : α} {b : Bool} {l : List α}
    (h : x ∈ (if b then l else [])) : b = true ∧ x ∈ l := by
  cases hb : b with
  | false => rw [hb] at h; simp at h
  | true => rw [hb] at h; exact ⟨rfl, by simpa using h⟩

theorem mem_pair_ite {b : Bool} {v w : Nat} {r rest : List Char}
    (h : (v, rest) ∈ (if b then [(w, r)] else [])) :
    b = true ∧ v = w ∧ rest = r := by
  cases hb : b with
  | false => rw [hb] at h; simp at h
  | true =>
    rw [hb] at h
    simp at h
    exact ⟨rfl, h.1, h.2⟩

theorem inRange_true {lo hi : Nat} {c : Char} (h : inRange lo hi c = true) :
    lo ≤ c.toNat ∧ c.toNat ≤ hi := by
  simpa [inRange] using h

/-- The value captured by each field directive is bounded: 9999 for the
four-digit year, at most two digits for everything else. -/
def fieldBound : FieldKind → Nat
  | .fY => 9999
  | _ => 99

theorem fieldM_le {cs : List Char} {v : Nat} {rest : List Char}
    (h : (v, rest) ∈ fieldM cs) : v ≤ 99 := by
  match cs with
  | [] => simp [fieldM] at h
  | [c1] =>
    obtain ⟨hg, hv, -⟩ := mem_pair_ite h
    obtain ⟨h1, h2⟩ := inRange_true hg
    simp only [dval] at hv
    omega
  | c1 :: c2 :: r =>
    simp only [fieldM, List.mem_append, or_assoc] at h
    rcases h with h | h | h
    · obtain ⟨hg, hv, -⟩ := mem_pair_ite h
      obtain ⟨-, hg2⟩ := Bool.and_eq_true_iff.mp hg
      obtain ⟨h1, h2⟩ := inRange_true hg2
      simp only [dval] at hv
      omega
    · obtain ⟨hg, hv, -⟩ := mem_pair_ite h
      obtain ⟨-, hg2⟩ := Bool.and_eq_true_iff.mp hg
      obtain ⟨h1, h2⟩ := inRange_true hg2
      simp only [dval] at hv
      omega
    · obtain ⟨hg, hv, -⟩ := mem_pair_ite h
      obtain ⟨h1, h2⟩ := inRange_true hg
      simp only [dval] at hv
      omega

theorem fieldD_le {cs : List Char} {v : Nat} {rest : List Char}
    (h : (v, rest) ∈ fieldD cs) : v ≤ 99 := by
  match cs with
  | [] => simp [fieldD] at h
  | [c1] =>
    obtain ⟨hg, hv, -⟩ := mem_pair_ite h
    obtain ⟨h1, h2⟩ := inRange_true hg
    simp only [dval] at hv
    omega
  | c1 :: c2 :: r =>
    simp only [fieldD, List.mem_append, or_assoc] at h
    rcases h with h | h | h | h | h
    · obtain ⟨hg, hv, -⟩ := mem_pair_ite h
      obtain ⟨-, hg2⟩ := Bool.and_eq_true_iff.mp hg
      obtain ⟨h1, h2⟩ := inRange_true hg2
      simp only [dval] at hv
      omega
    · obtain ⟨hg, hv, -⟩ := mem_pair_ite h
      obtain ⟨hg1, hg2⟩ := Bool.and_eq_true_iff.mp hg
      obtain ⟨h1, h2⟩ := inRange_true hg1
      obtain ⟨h3, h4⟩ := inRange_true hg2
      simp only [dval] at hv
      omega
    · obtain ⟨hg, hv, -⟩ := mem_pair_ite h
      obtain ⟨-, hg2⟩ := Bool.and_eq_true_iff.mp hg
      obtain ⟨h1, h2⟩ := inRange_true hg2
      simp only [dval] at hv
      omega
    · obtain ⟨hg, hv, -⟩ := mem_pair_ite h
      obtain ⟨h1, h2⟩ := inRange_true hg
      simp only [dval] at hv
      omega
    · obtain ⟨hg, hv, -⟩ := mem_pair_ite h
      obtain ⟨-, hg2⟩ := Bool.and_eq_true_iff.mp hg
      obtain ⟨h1, h2⟩ := inRange_true hg2
      simp only [dval] at hv
      omega

theorem fieldH_le {cs : List Char} {v : Nat} {rest : List Char}
    (h : (v, rest) ∈ fieldH cs) : v ≤ 99 := by
  match cs with
  | [] => simp [fieldH] at h
  | [c1] =>
    obtain ⟨hg, hv, -⟩ := mem_pair_ite h
    obtain ⟨h1, h2⟩ := inRange_true hg
    simp only [dval] at hv
    omega
  | c1 :: c2 :: r =>
    simp only [fieldH, List.mem_append, or_assoc] at h
    rcases h with h | h | h
    · obtain ⟨hg, hv, -⟩ := mem_pair_ite h
      obtain ⟨-, hg2⟩ := Bool.and_eq_true_iff.mp hg
      obtain ⟨h1, h2⟩ := inRange_true hg2
      simp only [dval] at hv
      omega
    · obtain ⟨hg, hv, -⟩ := mem_pair_ite h
      obtain ⟨hg1, hg2⟩ := Bool.and_eq_true_iff.mp hg
      obtain ⟨h1, h2⟩ := inRange_true hg1
      obtain ⟨h3, h4⟩ := inRange_true hg2
      simp only [dval] at hv
      omega
    · obtain ⟨hg, hv, -⟩ := mem_pair_ite h
      obtain ⟨h1, h2⟩ := inRange_true hg
      simp only [dval] at hv
      omega

theorem fieldMin_le {cs : List Char} {v : Nat} {rest : List Char}
    (h : (v, rest) ∈ fieldMin cs) : v ≤ 99 := by
  match cs with
  | [] => simp [fieldMin] at h
  | [c1] =>
    obtain ⟨hg, hv, -⟩ := mem_pair_ite h
    obtain ⟨h1, h2⟩ := inRange_true hg
    simp only [dval] at hv
    omega
  | c1 :: c2 :: r =>
    simp only [fieldMin, List.mem_append, or_assoc] at h
    rcases h with h | h
    · obtain ⟨hg, hv, -⟩ := mem_pair_ite h
      obtain ⟨hg1, hg2⟩ := Bool.and_eq_true_iff.mp hg
      obtain ⟨h1, h2⟩ := inRange_true hg1
      obtain ⟨h3, h4⟩ := inRange_true hg2
      simp only [dval] at hv
      omega
    · obtain ⟨hg, hv, -⟩ := mem_pair_ite h
      obtain ⟨h1, h2⟩ := inRange_true hg
      simp only [dval] at hv
      omega

theorem fieldS_le {cs : List Char} {v : Nat} {rest : List Char}
    (h : (v, rest) ∈ fieldS cs) : v ≤ 99 := by
  match cs with
  | [] => simp [fieldS] at h
  | [c1] =>
    obtain ⟨hg, hv, -⟩ := mem_pair_ite h
    obtain ⟨h1, h2⟩ := inRange_true hg
    simp only [dval] at hv
    omega
  | c1 :: c2 :: r =>
    simp only [fieldS, List.mem_append, or_assoc] at h
    rcases h with h | h | h
    · obtain ⟨hg, hv, -⟩ := mem_pair_ite h
      obtain ⟨-, hg2⟩ := Bool.and_eq_true_iff.mp hg
      obtain ⟨h1, h2⟩ := inRange_true hg2
      simp only [dval] at hv
      omega
    · obtain ⟨hg, hv, -⟩ := mem_pair_ite h
      obtain ⟨hg1, hg2⟩ := Bool.and_eq_true_iff.mp hg
      obtain ⟨h1, h2⟩ := inRange_true hg1
      obtain ⟨h3, h4⟩ := inRange_true hg2
      simp only [dval] at hv
      omega
    · obtain ⟨hg, hv, -⟩ := mem_pair_ite h
      obtain ⟨h1, h2⟩ := inRange_true hg
      simp only [dval] at hv
      omega

theorem fieldY_le {cs : List Char} {v : Nat} {rest : List Char}
    (h : (v, rest) ∈ fieldY cs) : v ≤ 9999 := by
  match cs with
  | [] => simp [fieldY] at h
  | [c1] => simp [fieldY] at h
  | [c1, c2] => simp [fieldY] at h
  | [c1, c2, c3] => simp [fieldY] at h
  | c1 :: c2 :: c3 :: c4 :: r =>
    obtain ⟨hg, hv, -⟩ := mem_pair_ite h
    obtain ⟨hg123, hg4⟩ := Bool.and_eq_true_iff.mp hg
    obtain ⟨hg12, hg3⟩ := Bool.and_eq_true_iff.mp hg123
    obtain ⟨hg1, hg2⟩ := Bool.and_eq_true_iff.mp hg12
    obtain ⟨h1a, h1b⟩ := inRange_true hg1
    obtain ⟨h2a, h2b⟩ := inRange_true hg2
    obtain ⟨h3a, h3b⟩ := inRange_true hg3
    obtain ⟨h4a, h4b⟩ := inRange_true hg4
    simp only [dval] at hv
    omega

theorem fieldF_le {cs : List Char} {v : Nat} {rest : List Char}
    (h : (v, rest) ∈ fieldF cs) : v ≤ 99 := by
  simp only [fieldF, List.mem_filterMap] at h
  obtain ⟨k, -, hk⟩ := h
  cases ht : takeDigits k cs with
  | none => rw [ht] at hk; simp [Option.map] at hk
  | some r =>
    rw [ht] at hk
    simp [Option.map] at hk
    omega

theorem fieldB_le {cs : List Char} {v : Nat} {rest : List Char}
    (h : (v, rest) ∈ fieldB cs) : v ≤ 99 := by
  match cs with
  | [] => simp [fieldB] at h
  | [c1] => simp [fieldB] at h
  | [c1, c2] => simp [fieldB] at h
  | c1 :: c2 :: c3 :: r =>
    simp only [fieldB] at h
    cases hf : monthNames.find? (fun p => p.1 == [c1.toLower, c2.toLower, c3.toLower]) with
    | none => rw [hf] at h; simp at h
    | some p =>
      rw [hf] at h
      simp at h
      have hp := List.mem_of_find?_eq_some hf
      simp only [monthNames, List.mem_cons, List.not_mem_nil, or_false] at hp
      have hval : p.2 ≤ 99 := by
        rcases hp with hp | hp | hp | hp | hp | hp | hp | hp | hp | hp | hp | hp <;>
          (rw [hp]; omega)
      omega


theorem parseField_le (k : FieldKind) {cs : List Char} {v : Nat} {rest : List Char}
    (h : (v, rest) ∈ parseField k cs) : v ≤ fieldBound k := by
  cases k with
  | fY => exact fieldY_le h
  | fm => exact fieldM_le h
  | fd => exact fieldD_le h
  | fH => exact fieldH_le h
  | fM => exact fieldMin_le h
  | fS => exact fieldS_le h
  | ff => exact fieldF_le h
  | fb => exact fieldB_le h

/-- All broken-down-time fields within the ranges the directive
subexpressions can capture. -/
def PBounded (t : PDat) : Prop :=
  t.y ≤ 9999 ∧ t.mo ≤ 99 ∧ t.dy ≤ 99 ∧ t.hh ≤ 99 ∧ t.mi ≤ 99 ∧ t.ss ≤ 99

theorem setFld_bounded (k : FieldKind) (v : Nat) (t : PDat)
    (hv : v ≤ fieldBound k) (ht : PBounded t) : PBounded (setFld k v t) := by
  obtain ⟨h1, h2, h3, h4, h5, h6⟩ := ht
  cases k <;> simp_all [setFld, fieldBound, PBounded]

theorem runFmt_bounded (items : List FItem) :
    ∀ (t : PDat) (cs : List Char) (t' : PDat) (rest : List Char),
      PBounded t → (t', rest) ∈ runFmt items t cs → PBounded t' := by
  induction items with
  | nil =>
    intro t cs t' rest ht h
    simp [runFmt] at h
    rw [h.1]
    exact ht
  | cons i is ih =>
    intro t cs t' rest ht h
    cases i with
    | lit c =>
      cases cs with
      | nil => simp [runFmt] at h
      | cons x xs =>
        simp only [runFmt] at h
        rcases mem_ite_nil h with ⟨_, h⟩
        exact ih t xs t' rest ht h
    | ws =>
      simp only [runFmt, List.mem_flatMap] at h
      obtain ⟨a, _, ha⟩ := h
      exact ih t a t' rest ht ha
    | fld k =>
      simp only [runFmt, List.mem_flatMap] at h
      obtain ⟨vr, hvr, ha⟩ := h
      have hb : (vr.1, vr.2) ∈ parseField k cs := by simpa using hvr
      exact ih (setFld k vr.1 t) vr.2 t' rest
        (setFld_bounded k vr.1 t (parseField_le k hb) ht) ha

theorem strptimeTF_bounded (f : List FItem) (s : String) (t : PDat)
    (h : strptimeTF f s = some t) : PBounded t := by
  unfold strptimeTF at h
  cases hr : runFmt f pd0 s.data with
  | nil => rw [hr] at h; exact Option.noConfusion h
  | cons p tl =>
    rw [hr] at h
    obtain ⟨t0, r0⟩ := p
    have h2 : (if r0.isEmpty && validDate t0 then some t0 else none) = some t := h
    by_cases hc : (r0.isEmpty && validDate t0) = true
    · rw [if_pos hc] at h2
      have ht0 : t0 = t := by simpa using h2
      subst ht0
      have hmem : (t0, r0) ∈ runFmt f pd0 s.data := by
        rw [hr]; exact List.mem_cons_self _ _
      exact runFmt_bounded f pd0 s.data t0 r0 (by simp [pd0, PBounded]) hmem
    · rw [if_neg hc] at h2; exact Option.noConfusion h2

theorem remapYear_range (y y2 : Nat) (hy : y ≤ 9999)
    (h : remapYear y = .ok y2) : 1900 ≤ y2 ∧ y2 ≤ 9999 := by
  unfold remapYear at h
  by_cases h1 : y < 1900
  · rw [if_pos h1] at h
    by_cases h2 : 69 ≤ y ∧ y ≤ 99
    · rw [if_pos h2] at h
      have := Except.ok.inj h
      omega
    · rw [if_neg h2] at h
      by_cases h3 : y ≤ 68
      · rw [if_pos h3] at h
        have := Except.ok.inj h
        omega
      · rw [if_neg h3] at h
        exact Except.noConfusion h
  · rw [if_neg h1] at h
    have := Except.ok.inj h
    omega

theorem tryFormat_bounded (f : List FItem) (s : String) (t : PDat)
    (h : tryFormat f s = some t) : PBounded t ∧ 1900 ≤ t.y := by
  unfold tryFormat at h
  cases hs : strptimeTF f s with
  | none => rw [hs] at h; exact Option.noConfusion h
  | some t0 =>
    rw [hs] at h
    have h2 : (match remapYear t0.y with
        | .ok y2 => some { t0 with y := y2 }
        | .error _ => none) = some t := h
    have hb0 := strptimeTF_bounded f s t0 hs
    cases hr : remapYear t0.y with
    | error e => rw [hr] at h2; exact Option.noConfusion h2
    | ok y2 =>
      rw [hr] at h2
      have ht : { t0 with y := y2 } = t := by simpa using h2
      obtain ⟨hy1, hy2⟩ := remapYear_range t0.y y2 hb0.1 hr
      subst ht
      exact ⟨⟨hy2, hb0.2.1, hb0.2.2.1, hb0.2.2.2.1, hb0.2.2.2.2.1, hb0.2.2.2.2.2⟩, hy1⟩

theorem firstParse_go_bounded (fs : List (List FItem)) (s : String) (t : PDat)
    (h : firstParse_go fs s = some t) : PBounded t ∧ 1900 ≤ t.y := by
  induction fs with
  | nil => simp [firstParse_go] at h
  | cons f fs ih =>
    simp only [firstParse_go] at h
    cases hf : tryFormat f s with
    | some t0 =>
      rw [hf] at h
      have : t0 = t := by simpa using h
      exact this ▸ tryFormat_bounded f s t0 hf
    | none => rw [hf] at h; exact ih h

theorem digitChar_isDigit (n : Nat) (h : n ≤ 9) : (digitChar n).isDigit = true := by
  interval_cases n <;> decide

theorem padTwo_pair (n : Nat) (h : n ≤ 99) :
    ∃ a b, padTwo n = [a, b] ∧ a.isDigit = true ∧ b.isDigit = true := by
  unfold padTwo
  by_cases h10 : n < 10
  · rw [if_pos h10]
    exact ⟨'0', digitChar n, rfl, by decide, digitChar_isDigit n (by omega)⟩
  · rw [if_neg h10]
    refine ⟨digitChar (n / 10), digitChar (n % 10), rfl, ?_, ?_⟩
    · exact digitChar_isDigit _ (by omega)
    · exact digitChar_isDigit _ (by omega)

theorem yearRender_big (y : Nat) (h1 : 1000 ≤ y) :
    yearRender y = [digitChar (y / 1000), digitChar (y / 100 % 10),
      digitChar (y / 10 % 10), digitChar (y % 10)] := by
  unfold yearRender
  rw [if_neg (by omega), if_neg (by omega), if_neg (by omega)]

theorem strftimeOut_shape (t : PDat) (hb : PBounded t) (hy : 1000 ≤ t.y) :
    (strftimeOut t).length = 15 ∧ isTimestamp15 (strftimeOut t) = true := by
  obtain ⟨h1, h2, h3, h4, h5, h6⟩ := hb
  obtain ⟨a1, a2, hmo, hmo1, hmo2⟩ := padTwo_pair t.mo h2
  obtain ⟨b1, b2, hdy, hdy1, hdy2⟩ := padTwo_pair t.dy h3
  obtain ⟨c1, c2, hhh, hhh1, hhh2⟩ := padTwo_pair t.hh h4
  obtain ⟨d1, d2, hmi, hmi1, hmi2⟩ := padTwo_pair t.mi h5
  obtain ⟨e1, e2, hss, hss1, hss2⟩ := padTwo_pair t.ss h6
  have hy4 := yearRender_big t.y hy
  have hda : (strftimeOut t).data
      = [digitChar (t.y / 1000), digitChar (t.y / 100 % 10),
         digitChar (t.y / 10 % 10), digitChar (t.y % 10),
         a1, a2, b1, b2, 'T', c1, c2, d1, d2, e1, e2] := by
    simp [strftimeOut, hy4, hmo, hdy, hhh, hmi, hss]
  constructor
  · show (strftimeOut t).data.length = 15
    rw [hda]
    rfl
  · rw [isTimestamp15, hda]
    simp [hmo1, hmo2, hdy1, hdy2, hhh1, hhh2, hmi1, hmi2, hss1, hss2,
      digitChar_isDigit (t.y / 1000) (by omega),
      digitChar_isDigit (t.y / 100 % 10) (by omega),
      digitChar_isDigit (t.y / 10 % 10) (by omega),
      digitChar_isDigit (t.y % 10) (by omega)]

theorem parse_date_go_corr (fs : List (List FItem)) (x : String) :
    (∀ t, firstParse_go fs x = some t → parse_date_go fs x = .ok (strftimeOut t))
    ∧ (firstParse_go fs x = none →
        parse_date_go fs x
          = .error (.valueError "unknown time format; check function ID.parse_date")) := by
  induction fs with
  | nil => exact ⟨fun t h => by simp [firstParse_go] at h, fun _ => rfl⟩
  | cons f fs ih =>
    constructor
    · intro t h
      simp only [firstParse_go] at h
      simp only [parse_date_go]
      cases hf : tryFormat f x with
      | some t0 =>
        rw [hf] at h
        have : t0 = t := by simpa using h
        rw [this]
      | none =>
        rw [hf] at h
        exact ih.1 t h
    · intro h
      simp only [firstParse_go] at h
      simp only [parse_date_go]
      cases hf : tryFormat f x with
      | some t0 => rw [hf] at h; simp at h
      | none => rw [hf] at h; exact ih.2 h

/-- C5 amended: `parse_date` normalizes through the fixed ordered format
list; whenever it returns a value at all, that value is the
`%Y%m%dT%H%M%S` rendering of the (year-remapped) parsed time and
consists of exactly fifteen characters in YYYYMMDDTHHMMSS shape -- the
Python 2.7 `accept2dyear` handling maps every renderable year into
1900..9999, so the year is always four digits.  However, not every
string accepted by an enumerated format yields a value: a parsed year in
100..1899 makes the strftime stage raise `ValueError`, so such a string
falls through to the terminal error (see the counterexample).  When no
enumerated format accepts the input, `parse_date` raises
`ValueError('unknown time format; check function ID.parse_date')`. -/
theorem parse_date_normalizes (s : String) :
    (∀ t, firstParse s = some t → parse_date s = .ok (strftimeOut t))
    ∧ (∀ t, firstParse s = some t →
        (strftimeOut t).length = 15 ∧ isTimestamp15 (strftimeOut t) = true)
    ∧ (firstParse s = none →
        parse_date s
          = .error (.valueError "unknown time format; check function ID.parse_date")) := by
  refine ⟨fun t h => (parse_date_go_corr timeformats s).1 t h,
    fun t h => ?_,
    fun h => (parse_date_go_corr timeformats s).2 h⟩
  obtain ⟨hb, hy⟩ := firstParse_go_bounded timeformats s t h
  exact strftimeOut_shape t hb (by omega)

/-- Witness for C5 at concrete inputs: an ISO-style stamp normalizes to
the fifteen-character form; a two-digit-style year 0099 is remapped by
the Python 2.7 strftime stage to 1999 and still yields fifteen
characters; a string matching no format errors. -/
theorem parse_date_normalizes_witness :
    firstParse "2020-01-02T03:04:05.5" = some ⟨2020, 1, 2, 3, 4, 5⟩
    ∧ parse_date "2020-01-02T03:04:05.5" = .ok (strftimeOut ⟨2020, 1, 2, 3, 4, 5⟩)
    ∧ (strftimeOut ⟨2020, 1, 2, 3, 4, 5⟩).length = 15
    ∧ isTimestamp15 (strftimeOut ⟨2020, 1, 2, 3, 4, 5⟩) = true
    ∧ firstParse "0099-01-02T03:04:05.5" = some ⟨1999, 1, 2, 3, 4, 5⟩
    ∧ parse_date "0099-01-02T03:04:05.5" = .ok (strftimeOut ⟨1999, 1, 2, 3, 4, 5⟩)
    ∧ strftimeOut ⟨1999, 1, 2, 3, 4, 5⟩ = "19990102T030405"
    ∧ firstParse "hello" = none
    ∧ parse_date "hello"
        = .error (.valueError "unknown time format; check function ID.parse_date") := by
  have h1 : firstParse "2020-01-02T03:04:05.5" = some ⟨2020, 1, 2, 3, 4, 5⟩ := by decide
  have h1b : firstParse "0099-01-02T03:04:05.5" = some ⟨1999, 1, 2, 3, 4, 5⟩ := by decide
  have h2 : firstParse "hello" = none := by decide
  obtain ⟨hl, hs⟩ := (parse_date_normalizes "2020-01-02T03:04:05.5").2.1
    ⟨2020, 1, 2, 3, 4, 5⟩ h1
  exact ⟨h1, (parse_date_normalizes "2020-01-02T03:04:05.5").1 _ h1, hl, hs,
    h1b, (parse_date_normalizes "0099-01-02T03:04:05.5").1 _ h1b, by decide, h2,
    (parse_date_normalizes "hello").2.2 h2⟩

/-- C5 counterexample: the string `1850-01-02T03:04:05.5` is accepted by
the third enumerated format -- `time.strptime` matches it and the date
is valid -- yet `parse_date` does not return a fifteen-character string
for it: Python 2.7's `time.strftime` rejects years 100..1899
(`ValueError('year out of range')` from the `accept2dyear` handling),
the attempt fails, no later format matches, and the call ends in the
terminal unknown-time-format error instead of returning a value. -/
theorem parse_date_not_always_15_counterexample :
    strptimeTF fmt3 "1850-01-02T03:04:05.5" = some ⟨1850, 1, 2, 3, 4, 5⟩
    ∧ remapYear 1850 = .error (.valueError "year out of range")
    ∧ parse_date "1850-01-02T03:04:05.5"
        = .error (.valueError "unknown time format; check function ID.parse_date") := by
  refine ⟨by decide, by decide, by rfl⟩

/-! ## Archive: the spatialite scene catalog (C2, C3, C10) -/

/-- One row of the `data` table: the columns of `Archive.lookup`
(line 1508: TEXT columns, INTEGER raster dimensions and polarization
flags, `outname_base` as TEXT PRIMARY KEY) plus the geometry column
`bbox`, stored as its WKT text. -/
structure Row where
  sensor : String
  orbit : String
  acquisition_mode : String
  start : String
  stop : String
  product : String
  samples : Int
  lines : Int
  outname_base : String
  scene : String
  hh : Int
  vv : Int
  hv : Int
  vh : Int
  bbox : String
  deriving Repr, DecidableEq

/-- `Archive.get_colnames()`: the columns of the `data` table. -/
def colnames : List String :=
  ["sensor", "orbit", "acquisition_mode", "start", "stop", "product", "samples",
   "lines", "outname_base", "scene", "hh", "vv", "hv", "vh", "bbox"]

/-- `Archive.__prepare_insertion` (lines 1530-1548): build the row for a
scene from its metadata handler; the polarization flags are
`int(attribute in pols)` with the handler's polarization list
lowercased, `outname_base` is the method value, and `bbox` is the WKT of
the scene footprint (computed by GDAL/OGR, here a parameter). -/
def prepare_insertion (id : IDmeta) (bboxWkt : String) : Row :=
  let pols := id.polarizations.map (fun p => lowerStr p)
  { sensor := id.sensor, orbit := id.orbit,
    acquisition_mode := id.acquisition_mode, start := id.start,
    stop := id.stop, product := id.product, samples := id.samples,
    lines := id.lines, outname_base := outname_base id, scene := id.scene,
    hh := if pols.contains "hh" then 1 else 0,
    vv := if pols.contains "vv" then 1 else 0,
    hv := if pols.contains "hv" then 1 else 0,
    vh := if pols.contains "vh" then 1 else 0,
    bbox := bboxWkt }

/-- One record insertion of `Archive.insert` (lines 1565-1578): the
`INSERT` succeeds unless a row with the same `outname_base` primary key
exists, in which case sqlite raises the UNIQUE-constraint
`IntegrityError`, the handler catches it, queries the scene registered
under that `outname_base` and reports it; the table is unchanged.
Returns the table afterwards and the reported pre-existing path. -/
def Archive.insert1 (db : List Row) (r : Row) : List Row × Option String :=
  if db.any (fun x => x.outname_base == r.outname_base) then
    (db, (db.find? (fun x => x.outname_base == r.outname_base)).map Row.scene)
  else (db ++ [r], none)

/-- A keyword-argument value of `Archive.select`: scalars
(str/int/float, rendered into the SQL text) give equality conditions,
sequences give IN conditions, anything else adds no condition
(lines 1627-1631). -/
inductive ArgVal where
  | scalar (s : String)
  | seq (vs : List String)
  | other
  deriving Repr, DecidableEq

/-- The arguments of `Archive.select` (line 1606).  `vectorobject` is
the WKT of a valid reprojected Vector object (an argument of any other
type is ignored with a message); `processdir` records whether a
process directory was handed in -- the `finder` scan it triggers, with
its `recursive` flag, is abstracted by the `processed` oracle of
`Archive.select`. -/
structure SelectArgs where
  vectorobject : Option String
  mindate : Option String
  maxdate : Option String
  processdir : Bool
  polarizations : Option (List String)
  args : List (String × ArgVal)

/-- One conjunct of the assembled WHERE clause. -/
inductive Cond where
  | eqv (col : String) (val : String)
  | inv (col : String) (vals : List String)
  | geStart (val : String)
  | leStop (val : String)
  | polEq (col : String)
  | spatial (wkt : String)
  deriving Repr, DecidableEq

/-- Does the text begin with eight digits, `T`, six digits? -/
def dateHere : List Char → Bool
  | d1 :: d2 :: d3 :: d4 :: d5 :: d6 :: d7 :: d8 :: t :: e1 :: e2 :: e3 :: e4 :: e5 :: e6 :: _ =>
    inRange 48 57 d1 && inRange 48 57 d2 && inRange 48 57 d3 && inRange 48 57 d4
    && inRange 48 57 d5 && inRange 48 57 d6 && inRange 48 57 d7 && inRange 48 57 d8
    && t == 'T'
    && inRange 48 57 e1 && inRange 48 57 e2 && inRange 48 57 e3 && inRange 48 57 e4
    && inRange 48 57 e5 && inRange 48 57 e6
  | _ => false

def anyTail (p : List Char → Bool) : List Char → Bool
  | [] => p []
  | c :: cs => p (c :: cs) || anyTail p cs

/-- `re.search('[0-9]{8}T[0-9]{6}', s)` (lines 1633 and 1639): the
mindate/maxdate sanity check, a search anywhere in the string. -/
def hasDatePattern (s : String) : Bool := anyTail dateHere s.data

/-- The conditions contributed by the keyword arguments (lines
1620-1631): only keys that are registered columns count, scalars give
equality, sequences give IN, other values nothing. -/
def argConds (args : List (String × ArgVal)) : List Cond :=
  (args.filter (fun kv => colnames.contains kv.1)).filterMap
    (fun kv => match kv.2 with
      | .scalar s => some (.eqv kv.1 s)
      | .seq vs => some (.inv kv.1 vs)
      | .other => none)

/-- The full WHERE-clause assembly of `Archive.select` (lines
1620-1657), in source order: keyword arguments, `start>=mindate` if the
mindate matches the date pattern (else ignored), `stop<=maxdate`
likewise, one `{pol}=1` condition per recognized polarization code, and
the spatial intersection test for a valid vector object. -/
def buildConds (q : SelectArgs) : List Cond :=
  argConds q.args
  ++ (match q.mindate with
      | some md => if hasDatePattern md then [Cond.geStart md] else []
      | none => [])
  ++ (match q.maxdate with
      | some md => if hasDatePattern md then [Cond.leStop md] else []
      | none => [])
  ++ (match q.polarizations with
      | some pols => pols.filterMap (fun p =>
          if p == "HH" || p == "VV" || p == "HV" || p == "VH"
          then some (Cond.polEq (lowerStr p)) else none)
      | none => [])
  ++ (match q.vectorobject with
      | some wkt => [Cond.spatial wkt]
      | none => [])

/-- A stored column value with its declared affinity. -/
inductive SqlVal where
  | text (s : String)
  | int (i : Int)
  deriving Repr, DecidableEq

def getCol (r : Row) : String → Option SqlVal
  | "sensor" => some (.text r.sensor)
  | "orbit" => some (.text r.orbit)
  | "acquisition_mode" => some (.text r.acquisition_mode)
  | "start" => some (.text r.start)
  | "stop" => some (.text r.stop)
  | "product" => some (.text r.product)
  | "samples" => some (.int r.samples)
  | "lines" => some (.int r.lines)
  | "outname_base" => some (.text r.outname_base)
  | "scene" => some (.text r.scene)
  | "hh" => some (.int r.hh)
  | "vv" => some (.int r.vv)
  | "hv" => some (.int r.hv)
  | "vh" => some (.int r.vh)
  | "bbox" => some (.text r.bbox)
  | _ => none

/-- sqlite numeric conversion of a rendered literal: an optional sign
followed by digits. -/
def parseIntLit (s : String) : Option Int :=
  match s.data with
  | '-' :: c :: cs =>
    if (c :: cs).all (inRange 48 57) then
      some (-(((c :: cs).foldl (fun a d => 10 * a + dval d) 0 : Nat) : Int))
    else none
  | c :: cs =>
    if (c :: cs).all (inRange 48 57) then
      some (((c :: cs).foldl (fun a d => 10 * a + dval d) 0 : Nat) : Int)
    else none
  | [] => none

/-- Equality of a stored value against a rendered literal under sqlite
affinity: TEXT columns compare as text; INTEGER columns convert the
literal to a number, and a non-numeric literal never equals an
integer. -/
def sqlEq (v : SqlVal) (lit : String) : Bool :=
  match v with
  | .text s => s == lit
  | .int i =>
    match parseIntLit lit with
    | some n => i == n
    | none => false

/-- sqlite BINARY collation: lexicographic comparison of the UTF-8
bytes, which on UTF-8 coincides with code-point order; a proper initial
segment sorts first. -/
def charListLe : List Char → List Char → Bool
  | [], _ => true
  | _ :: _, [] => false
  | a :: as, b :: bs =>
    if a.toNat < b.toNat then true
    else if a == b then charListLe as bs
    else false

/-- Evaluate one WHERE conjunct on a row.  Text comparison is sqlite's
BINARY collation; `st_intersects` is the spatialite geometry test, a
parameter. -/
def evalCond (intersects : String → String → Bool) (r : Row) : Cond → Bool
  | .eqv col val =>
    match getCol r col with
    | some v => sqlEq v val
    | none => false
  | .inv col vals =>
    match getCol r col with
    | some v => vals.any (fun w => sqlEq v w)
    | none => false
  | .geStart val => charListLe val.data r.start.data
  | .leStop val => charListLe r.stop.data val.data
  | .polEq col =>
    match getCol r col with
    | some (.int i) => i == 1
    | _ => false
  | .spatial wkt => intersects wkt r.bbox

/-- `Archive.select` (lines 1606-1667).  The query string
`SELECT scene, outname_base FROM data WHERE {conds joined by AND}` is
executed by sqlite: an empty condition list leaves a syntactically
incomplete statement and `conn.execute` raises the
`OperationalError('incomplete input')` before anything is fetched.
Otherwise the matching rows are fetched as (scene, outname_base) pairs
in rowid order, rows whose outname is found in the process directory are
dropped when one was given, and -- line 1667 -- only `x[0]`, the scene
path, of each pair is returned. -/
def Archive.select (intersects : String → String → Bool)
    (processed : String → Bool) (db : List Row) (q : SelectArgs) :
    Except PyErr (List String) :=
  let conds := buildConds q
  if conds.isEmpty then .error (.operationalError "incomplete input")
  else
    let rows := db.filter (fun r => conds.all (evalCond intersects r))
    let pairs := rows.map (fun r => (r.scene, r.outname_base))
    let kept := if q.processdir then pairs.filter (fun p => !(processed p.2)) else pairs
    .ok (kept.map Prod.fst)

/-- C3: inserting a scene whose output base name is not yet in the
catalog and then inserting it again leaves exactly one row under that
base name; the second insert changes nothing and reports the
pre-existing source path instead of raising. -/
theorem insert_twice_one_row (db : List Row) (r : Row)
    (hfresh : ∀ x ∈ db, x.outname_base ≠ r.outname_base) :
    (Archive.insert1 db r).1 = db ++ [r]
    ∧ (Archive.insert1 (db ++ [r]) r).1 = db ++ [r]
    ∧ (Archive.insert1 (db ++ [r]) r).2 = some r.scene
    ∧ ((db ++ [r]).filter (fun x => x.outname_base == r.outname_base)).length = 1 := by
  have hanyF : db.any (fun x => x.outname_base == r.outname_base) = false := by
    rw [List.any_eq_false]
    intro x hx
    simpa using hfresh x hx
  have hfind : db.find? (fun x => x.outname_base == r.outname_base) = none := by
    rw [List.find?_eq_none]
    intro x hx
    simpa using hfresh x hx
  have hfilter : db.filter (fun x => x.outname_base == r.outname_base) = [] := by
    rw [List.filter_eq_nil_iff]
    intro x hx
    simpa using hfresh x hx
  have hany : (db ++ [r]).any (fun x => x.outname_base == r.outname_base) = true := by
    simp [List.any_append]
  refine ⟨?_, ?_, ?_, ?_⟩
  · simp [Archive.insert1, hanyF]
  · simp [Archive.insert1, hany]
  · simp [Archive.insert1, hany, List.find?_append, hfind]
  · simp [List.filter_append, hfilter]

/-- Witness for C3 at a concrete catalog: a one-row catalog and a fresh
scene. -/
theorem insert_twice_one_row_witness :
    (Archive.insert1 [{ sensor := "ERS1", orbit := "A", acquisition_mode := "IMS",
                        start := "19990101T000000", stop := "19990101T000100",
                        product := "SLC", samples := 4, lines := 4,
                        outname_base := "old", scene := "old.zip", hh := 0, vv := 1,
                        hv := 0, vh := 0, bbox := "POLYGON" }]
        { sensor := "S1A_", orbit := "A", acquisition_mode := "IW__",
          start := "20200101T000000", stop := "20200101T000100",
          product := "GRD", samples := 4, lines := 4,
          outname_base := "new", scene := "new.zip", hh := 0, vv := 1,
          hv := 0, vh := 0, bbox := "POLYGON" }).2 = none
    ∧ (Archive.insert1
        ([{ sensor := "ERS1", orbit := "A", acquisition_mode := "IMS",
            start := "19990101T000000", stop := "19990101T000100",
            product := "SLC", samples := 4, lines := 4,
            outname_base := "old", scene := "old.zip", hh := 0, vv := 1,
            hv := 0, vh := 0, bbox := "POLYGON" }]
          ++ [{ sensor := "S1A_", orbit := "A", acquisition_mode := "IW__",
                start := "20200101T000000", stop := "20200101T000100",
                product := "GRD", samples := 4, lines := 4,
                outname_base := "new", scene := "new.zip", hh := 0, vv := 1,
                hv := 0, vh := 0, bbox := "POLYGON" }])
        { sensor := "S1A_", orbit := "A", acquisition_mode := "IW__",
          start := "20200101T000000", stop := "20200101T000100",
          product := "GRD", samples := 4, lines := 4,
          outname_base := "new", scene := "new.zip", hh := 0, vv := 1,
          hv := 0, vh := 0, bbox := "POLYGON" }).2 = some "new.zip" := by
  constructor
  · rfl
  · exact (insert_twice_one_row
      [{ sensor := "ERS1", orbit := "A", acquisition_mode := "IMS",
         start := "19990101T000000", stop := "19990101T000100",
         product := "SLC", samples := 4, lines := 4,
         outname_base := "old", scene := "old.zip", hh := 0, vv := 1,
         hv := 0, vh := 0, bbox := "POLYGON" }]
      { sensor := "S1A_", orbit := "A", acquisition_mode := "IW__",
        start := "20200101T000000", stop := "20200101T000100",
        product := "GRD", samples := 4, lines := 4,
        outname_base := "new", scene := "new.zip", hh := 0, vv := 1,
        hv := 0, vh := 0, bbox := "POLYGON" }
      (by intro x hx; simp at hx; rw [hx]; decide)).2.2.1

theorem argConds_nil (l : List (String × ArgVal))
    (h : ∀ kv ∈ l, colnames.contains kv.1 = false ∨ kv.2 = ArgVal.other) :
    argConds l = [] := by
  rw [argConds, List.filterMap_eq_nil_iff]
  intro kv hkv
  have hm := List.mem_filter.mp hkv
  rcases h kv hm.1 with hc | ho
  · rw [hm.2] at hc
    exact absurd hc (by simp)
  · rw [ho]

/-- C10: `Archive.select` with no effective filter -- no vector object,
no mindate or maxdate matching the date pattern, no recognized
polarization code, and no keyword argument naming a registered column
with a usable value -- assembles an empty WHERE clause; the resulting
statement `SELECT scene, outname_base FROM data WHERE ` is rejected by
sqlite, so `select` raises a database error instead of returning all
rows: at least one valid filter is required. -/
theorem select_requires_filter (intersects : String → String → Bool)
    (processed : String → Bool) (db : List Row) (q : SelectArgs)
    (hvec : q.vectorobject = none)
    (hmin : ∀ md, q.mindate = some md → hasDatePattern md = false)
    (hmax : ∀ md, q.maxdate = some md → hasDatePattern md = false)
    (hpol : ∀ ps, q.polarizations = some ps →
      ∀ p ∈ ps, ¬(p = "HH" ∨ p = "VV" ∨ p = "HV" ∨ p = "VH"))
    (hargs : ∀ kv ∈ q.args, colnames.contains kv.1 = false ∨ kv.2 = ArgVal.other) :
    Archive.select intersects processed db q
      = .error (.operationalError "incomplete input") := by
  have h1 : argConds q.args = [] := argConds_nil q.args hargs
  have h2 : (match q.mindate with
      | some md => if hasDatePattern md then [Cond.geStart md] else []
      | none => []) = [] := by
    cases hm : q.mindate with
    | none => rfl
    | some md =>
      show (if hasDatePattern md = true then [Cond.geStart md] else []) = []
      rw [hmin md hm]
      rfl
  have h3 : (match q.maxdate with
      | some md => if hasDatePattern md then [Cond.leStop md] else []
      | none => []) = [] := by
    cases hm : q.maxdate with
    | none => rfl
    | some md =>
      show (if hasDatePattern md = true then [Cond.leStop md] else []) = []
      rw [hmax md hm]
      rfl
  have h4 : (match q.polarizations with
      | some pols => pols.filterMap (fun p =>
          if p == "HH" || p == "VV" || p == "HV" || p == "VH"
          then some (Cond.polEq (lowerStr p)) else none)
      | none => []) = [] := by
    cases hp : q.polarizations with
    | none => rfl
    | some ps =>
      rw [List.filterMap_eq_nil_iff]
      intro p hpmem
      have hnp := hpol ps hp p hpmem
      have : (p == "HH" || p == "VV" || p == "HV" || p == "VH") = false := by
        simp only [Bool.or_eq_false_iff, beq_eq_false_iff_ne, ne_eq]
        push_neg at hnp
        exact ⟨⟨⟨hnp.1, hnp.2.1⟩, hnp.2.2.1⟩, hnp.2.2.2⟩
      rw [this]
      rfl
  have hconds : buildConds q = [] := by
    rw [buildConds, h1, h2, h3, h4, hvec]
    rfl
  simp [Archive.select, hconds]

/-- Witness for C10 at a concrete call: a date in the wrong format, an
unrecognized polarization code and an unregistered keyword argument
leave no filter, and select errors. -/
theorem select_requires_filter_witness :
    Archive.select (fun _ _ => false) (fun _ => false) []
      { vectorobject := none, mindate := some "yesterday", maxdate := none,
        processdir := false, polarizations := some ["XX"],
        args := [("foo", ArgVal.scalar "1")] }
      = .error (.operationalError "incomplete input") := by
  exact select_requires_filter (fun _ _ => false) (fun _ => false) []
    { vectorobject := none, mindate := some "yesterday", maxdate := none,
      processdir := false, polarizations := some ["XX"],
      args := [("foo", ArgVal.scalar "1")] }
    rfl
    (by intro md hmd; cases hmd; decide)
    (by intro md hmd; cases hmd)
    (by intro ps hps p hp; cases hps; simp at hp; rw [hp]; decide)
    (by intro kv hkv; simp at hkv; rw [hkv]; left; decide)

/-- A catalog row for the C2 scenario: a VV scene with the given scene
path, output base name and time extent. -/
def c2Row (sc out st sp : String) : Row :=
  { sensor := "S1A_", orbit := "A", acquisition_mode := "IW__", start := st,
    stop := sp, product := "GRD", samples := 10, lines := 10,
    outname_base := out, scene := sc, hh := 0, vv := 1, hv := 0, vh := 0,
    bbox := "POLYGON((0 0,1 0,1 1,0 1,0 0))" }

/-- The C2 scenario query: time window and VV polarization. -/
def c2Query : SelectArgs :=
  { vectorobject := none, mindate := some "20200101T000000",
    maxdate := some "20200201T000000", processdir := false,
    polarizations := some ["VV"], args := [] }

/-- C2 counterexample: on the scenario catalog -- two VV scenes inside
the window, one outside -- `select` returns the two matching scene paths
only, not `(scene, output_base_name)` pairs: line 1667 projects each
fetched pair to `x[0]`.  Two catalogs differing only in the output base
name of a matching row produce identical `select` output, which is
impossible for a function returning the pairs. -/
theorem select_returns_scene_paths_counterexample :
    Archive.select (fun _ _ => false) (fun _ => false)
      [c2Row "scene1" "out1" "20200105T000000" "20200105T000100",
       c2Row "scene2" "out2" "20200110T000000" "20200110T000100",
       c2Row "scene3" "out3" "20200305T000000" "20200305T000100"] c2Query
      = .ok ["scene1", "scene2"]
    ∧ Archive.select (fun _ _ => false) (fun _ => false)
      [c2Row "scene1" "outX" "20200105T000000" "20200105T000100",
       c2Row "scene2" "out2" "20200110T000000" "20200110T000100",
       c2Row "scene3" "out3" "20200305T000000" "20200305T000100"] c2Query
      = .ok ["scene1", "scene2"]
    ∧ (c2Row "scene1" "out1" "20200105T000000" "20200105T000100").outname_base
      ≠ (c2Row "scene1" "outX" "20200105T000000" "20200105T000100").outname_base := by
  refine ⟨by rfl, by rfl, by decide⟩

/-- C2 amended: for every catalog, `select` with a well-formed time
window and the VV polarization applies the filters conjunctively --
inclusive bounds `start >= mindate` and `stop <= maxdate`, and the VV
presence flag -- and returns the matching rows' scene paths (not
`(scene, outname)` pairs), in catalog order. -/
theorem select_window_vv (intersects : String → String → Bool)
    (processed : String → Bool) (db : List Row) (mind maxd : String)
    (hmin : hasDatePattern mind = true) (hmax : hasDatePattern maxd = true) :
    Archive.select intersects processed db
      { vectorobject := none, mindate := some mind, maxdate := some maxd,
        processdir := false, polarizations := some ["VV"], args := [] }
      = .ok ((db.filter (fun r =>
          charListLe mind.data r.start.data && charListLe r.stop.data maxd.data
            && (r.vv == 1))).map Row.scene) := by
  have hconds : buildConds
      { vectorobject := none, mindate := some mind, maxdate := some maxd,
        processdir := false, polarizations := some ["VV"], args := [] }
      = [Cond.geStart mind, Cond.leStop maxd, Cond.polEq "vv"] := by
    simp only [buildConds, argConds, List.filter_nil, List.filterMap_nil,
      List.nil_append]
    rw [if_pos hmin, if_pos hmax]
    have hf : List.filterMap
        (fun p => if p == "HH" || p == "VV" || p == "HV" || p == "VH"
          then some (Cond.polEq (lowerStr p)) else none) ["VV"]
        = [Cond.polEq "vv"] := by decide
    rw [hf]
    rfl
  have hvv : ∀ r : Row, getCol r "vv" = some (.int r.vv) := fun r => rfl
  simp only [Archive.select, hconds, List.isEmpty_cons, Bool.false_eq_true,
    if_false, List.map_map]
  have hfil : db.filter
        (fun r => ([Cond.geStart mind, Cond.leStop maxd, Cond.polEq "vv"]).all
          (evalCond intersects r))
      = db.filter (fun r =>
          charListLe mind.data r.start.data && charListLe r.stop.data maxd.data
            && (r.vv == 1)) := by
    apply List.filter_congr
    intro r _
    simp only [List.all_cons, List.all_nil, evalCond, hvv, Bool.and_true,
      Bool.and_assoc]
  rw [hfil]
  rfl

/-- Witness for the amended C2: the scenario catalog -- two VV scenes
inside the window, one outside -- yields exactly the two matching scene
paths. -/
theorem select_window_vv_witness :
    hasDatePattern "20200101T000000" = true
    ∧ hasDatePattern "20200201T000000" = true
    ∧ Archive.select (fun _ _ => false) (fun _ => false)
        [c2Row "scene1" "out1" "20200105T000000" "20200105T000100",
         c2Row "scene2" "out2" "20200110T000000" "20200110T000100",
         c2Row "scene3" "out3" "20200305T000000" "20200305T000100"]
        { vectorobject := none, mindate := some "20200101T000000",
          maxdate := some "20200201T000000", processdir := false,
          polarizations := some ["VV"], args := [] }
      = .ok ["scene1", "scene2"] := by
  refine ⟨by decide, by decide, ?_⟩
  rw [select_window_vv (fun _ _ => false) (fun _ => false)
    [c2Row "scene1" "out1" "20200105T000000" "20200105T000100",
     c2Row "scene2" "out2" "20200110T000000" "20200110T000100",
     c2Row "scene3" "out3" "20200305T000000" "20200305T000100"]
    "20200101T000000" "20200201T000000" (by decide) (by decide)]
  rfl

/-! ## CEOS_PSR facility-related record scan (C6) -/

/-- Python list slicing `led[a:b]` (unit step) with its clamping
semantics for negative and out-of-range indices. -/
def pySlice (led : List Nat) (a b : Int) : List Nat :=
  let n : Int := led.length
  let a2 := if a < 0 then max 0 (n + a) else min a n
  let b2 := if b < 0 then max 0 (n + b) else min b n
  if a2 < b2 then (led.drop a2.toNat).take (b2 - a2).toNat else []

/-- `struct.unpack('>i', b)[0]`: big-endian signed 32-bit integer; any
argument that is not exactly four bytes raises `struct.error`. -/
def unpack_int_be (b : List Nat) : Except PyErr Int :=
  match b with
  | [b0, b1, b2, b3] =>
    let u : Int := ((b0 * 256 + b1) * 256 + b2) * 256 + b3
    .ok (if 128 ≤ b0 then u - 4294967296 else u)
  | _ => .error (.structError "unpack requires a string argument of length 4")

/-- The while-loop of `CEOS_PSR.scanMetadata` lines 823-829: starting at
`p1` (the end of the fixed-count record sections), repeatedly decode the
4-byte big-endian length field at sub-offset 8 and append
`led[p0:p0+length]` until `p1` reaches the end of the leader data.
A non-positive decoded length makes the Python loop run forever, so the
embedding runs on explicit fuel; `none` means the fuel ran out. -/
def facilityLoop (led : List Nat) : Nat → Int → List (List Nat) →
    Option (Except PyErr (List (List Nat)))
  | 0, _, _ => none
  | fuel + 1, p1, acc =>
    if p1 < (led.length : Int) then
      match unpack_int_be (pySlice led (p1 + 8) (p1 + 12)) with
      | .error e => some (.error e)
      | .ok len => facilityLoop led fuel (p1 + len) (acc ++ [pySlice led p1 (p1 + len)])
    else some (.ok acc)

/-- C6 counterexample: a 16-byte facility-record region whose length
field (bytes 8..12) declares a 100-byte record, far past end-of-file.
The loop does not raise: the slice silently truncates at end-of-file,
the truncated record is appended and the scan terminates successfully,
so `scanMetadata` goes on to return its metadata mapping. -/
theorem facility_truncated_no_error_counterexample :
    unpack_int_be (pySlice [1, 2, 3, 4, 5, 6, 7, 8, 0, 0, 0, 100, 13, 14, 15, 16] 8 12)
      = .ok 100
    ∧ ([1, 2, 3, 4, 5, 6, 7, 8, 0, 0, 0, 100, 13, 14, 15, 16] : List Nat).length = 16
    ∧ facilityLoop [1, 2, 3, 4, 5, 6, 7, 8, 0, 0, 0, 100, 13, 14, 15, 16] 2 0 []
      = some (.ok [[1, 2, 3, 4, 5, 6, 7, 8, 0, 0, 0, 100, 13, 14, 15, 16]]) := by
  refine ⟨by decide, by decide, by decide⟩

theorem pySlice_truncated (led : List Nat) (p1 L : Int)
    (h0 : 0 ≤ p1) (h1 : p1 < (led.length : Int))
    (h3 : (led.length : Int) < p1 + L) :
    pySlice led p1 (p1 + L) = (led.drop p1.toNat).take (led.length - p1.toNat)
    ∧ (pySlice led p1 (p1 + L)).length = led.length - p1.toNat := by
  have ha : (if p1 < 0 then max 0 ((led.length : Int) + p1)
      else min p1 (led.length : Int)) = p1 := by
    rw [if_neg (by omega)]
    omega
  have hb : (if p1 + L < 0 then max 0 ((led.length : Int) + (p1 + L))
      else min (p1 + L) (led.length : Int)) = (led.length : Int) := by
    rw [if_neg (by omega)]
    omega
  have hslice : pySlice led p1 (p1 + L)
      = (led.drop p1.toNat).take (led.length - p1.toNat) := by
    rw [pySlice]
    simp only [ha, hb]
    rw [if_pos h1]
    congr 1
    omega
  refine ⟨hslice, ?_⟩
  rw [hslice]
  rw [List.length_take, List.length_drop]
  omega

/-- C6 amended: when the 4-byte big-endian length field at the fixed
sub-offset is readable but declares a record extending past end-of-file,
the scan does not raise a malformed-record error: the slice silently
truncates at end-of-file, the truncated record (shorter than the
declared length) is appended, and the loop terminates successfully with
the records collected so far -- partial data is returned, not an
error.  (An error, `struct.error`, arises only when fewer than four
bytes remain for the length field itself.) -/
theorem facility_truncated_silently (led : List Nat) (p1 L : Int) (fuel : Nat)
    (acc : List (List Nat))
    (h0 : 0 ≤ p1) (h1 : p1 < (led.length : Int))
    (h2 : unpack_int_be (pySlice led (p1 + 8) (p1 + 12)) = .ok L)
    (h3 : (led.length : Int) < p1 + L) :
    facilityLoop led (fuel + 2) p1 acc
      = some (.ok (acc ++ [pySlice led p1 (p1 + L)]))
    ∧ (pySlice led p1 (p1 + L)).length = led.length - p1.toNat
    ∧ ((pySlice led p1 (p1 + L)).length : Int) < L := by
  obtain ⟨hs, hlen⟩ := pySlice_truncated led p1 L h0 h1 h3
  have hstep : facilityLoop led (fuel + 2) p1 acc
      = facilityLoop led (fuel + 1) (p1 + L) (acc ++ [pySlice led p1 (p1 + L)]) := by
    show (if p1 < (led.length : Int) then _ else _) = _
    rw [if_pos h1, h2]
  have hstop : facilityLoop led (fuel + 1) (p1 + L) (acc ++ [pySlice led p1 (p1 + L)])
      = some (.ok (acc ++ [pySlice led p1 (p1 + L)])) := by
    show (if p1 + L < (led.length : Int) then _ else _) = _
    rw [if_neg (by omega)]
  refine ⟨hstep.trans hstop, hlen, ?_⟩
  rw [hlen]
  omega

/-- Witness for the amended C6 at the concrete truncated region. -/
theorem facility_truncated_silently_witness :
    facilityLoop [1, 2, 3, 4, 5, 6, 7, 8, 0, 0, 0, 100, 13, 14, 15, 16] 2 0 []
      = some (.ok ([] ++ [pySlice [1, 2, 3, 4, 5, 6, 7, 8, 0, 0, 0, 100, 13, 14, 15, 16] 0 (0 + 100)]))
    ∧ (pySlice [1, 2, 3, 4, 5, 6, 7, 8, 0, 0, 0, 100, 13, 14, 15, 16] 0 (0 + 100)).length = 16
    ∧ ((pySlice [1, 2, 3, 4, 5, 6, 7, 8, 0, 0, 0, 100, 13, 14, 15, 16] 0 (0 + 100)).length : Int) < 100 := by
  have h := facility_truncated_silently
    [1, 2, 3, 4, 5, 6, 7, 8, 0, 0, 0, 100, 13, 14, 15, 16] 0 100 0 []
    (by decide) (by decide) (by decide) (by decide)
  exact ⟨h.1, h.2.1, h.2.2⟩

end PyroSAR
